import Mathlib

/-!
# Verification of the apiscope capture / analysis pipeline

Shallow embedding of the two engines of the repository:

* `capture-api.js` (src/bin/capture.js): the CDP event correlator, noise
  filter, redactor/truncator, per-domain store and idempotent shutdown.
* `generate-api-skill.js` (src/unnamed/part_000): URL path normalization,
  endpoint clustering, JSON schema inference, auth-pattern detection and
  the deterministic SKILL.md renderer.

JavaScript strings are modelled as Lean `String` (lists of characters),
JS `Map` objects as insertion-ordered association lists, JS `null` /
`undefined` as `Option`, and the single-threaded event loop as a small-step
function over an explicit state.  The WHATWG `new URL` parser (a platform
library, not part of the repository) is modelled for the `scheme://host/...`
shape that matters to this code: parsing fails exactly when the string does
not start with a nonempty alphabetic scheme followed by `://` and a nonempty
host, and `pathname` always starts with `/`.
-/

namespace Apiscope

/-! ## Association lists (JS `Map` with insertion order) -/

/-- Lookup in an insertion-ordered association list (`Map.get`). -/
def alookup {β : Type} (k : String) : List (String × β) → Option β
  | [] => none
  | (k', v) :: rest => if k' = k then some v else alookup k rest

/-- Lookup keyed by `Nat` (CDP request identifiers). -/
def nlookup {β : Type} (k : Nat) : List (Nat × β) → Option β
  | [] => none
  | (k', v) :: rest => if k' = k then some v else nlookup k rest

/-- `Map.set`: overwrite in place if present, else append at the end
(JS `Map` keeps the original insertion position on overwrite). -/
def nset {β : Type} (k : Nat) (v : β) : List (Nat × β) → List (Nat × β)
  | [] => [(k, v)]
  | (k', v') :: rest => if k' = k then (k', v) :: rest else (k', v') :: nset k v rest

/-- `Map.delete`. -/
def nerase {β : Type} (k : Nat) : List (Nat × β) → List (Nat × β)
  | [] => []
  | (k', v') :: rest => if k' = k then rest else (k', v') :: nerase k rest

/-- `map.set(k, (map.get(k) || 0) + 1)`: bump a counter. -/
def bump (k : String) : List (String × Nat) → List (String × Nat)
  | [] => [(k, 1)]
  | (k', c) :: rest => if k' = k then (k', c + 1) :: rest else (k', c) :: bump k rest

/-! ## The URL model

Modelled from the spec: both scripts use the platform's WHATWG `new URL(s)`
parser, which is not part of the repository.  We model the fragment that the
repository exercises: a URL is `scheme://host[/path][?query][#fragment]`
with a nonempty alphabetic scheme and a nonempty host (chars up to the first
`:`, `/`, `?` or `#`); anything else fails to parse (the scripts catch the
failure).  `pathname` always starts with `/` and stops before `?`/`#`;
`search` is the query-string text after `?` (without the `?`). -/

structure URLRec where
  scheme : List Char
  hostname : List Char
  pathname : List Char
  search : List Char
deriving DecidableEq

/-- Split a character list at the first occurrence of `"://"`,
returning the part before and the part after. -/
def splitScheme : List Char → Option (List Char × List Char)
  | [] => none
  | c :: rest =>
    if c = ':' ∧ rest.take 2 = ['/', '/'] then some ([], rest.drop 2)
    else (splitScheme rest).map (fun p => (c :: p.1, p.2))

def isHostEnd (c : Char) : Bool := c = ':' ∨ c = '/' ∨ c = '?' ∨ c = '#'

def isHostDelim (c : Char) : Bool := c = '/' ∨ c = '?' ∨ c = '#'

def isPathEnd (c : Char) : Bool := c = '?' ∨ c = '#'

/-- The `pathname` of a parsed URL, from the part following the host (and
port): the `/...` text up to `?`/`#`, or `/` when no path is present. -/
def pathOf (afterHost : List Char) : List Char :=
  if afterHost.take 1 = ['/'] then afterHost.takeWhile (fun c => ¬ isPathEnd c)
  else ['/']

/-- The query text (without the leading `?`). -/
def searchOf (afterPath : List Char) : List Char :=
  if afterPath.take 1 = ['?'] then (afterPath.drop 1).takeWhile (fun c => c ≠ '#')
  else []

/-- Everything following the host and the optional `:port`. -/
def urlAfterHost (rest : List Char) : List Char :=
  (rest.dropWhile (fun c => ¬ isHostEnd c)).dropWhile (fun c => ¬ isHostDelim c)

/-- Model of `new URL(s)` (see the module comment): `none` models the thrown
`TypeError` that the scripts catch. -/
def parseURLChars (s : List Char) : Option URLRec :=
  match splitScheme s with
  | none => none
  | some (scheme, rest) =>
    if scheme ≠ [] ∧ scheme.all Char.isAlpha then
      if rest.takeWhile (fun c => ¬ isHostEnd c) = [] then none
      else
        some { scheme := scheme,
               hostname := rest.takeWhile (fun c => ¬ isHostEnd c),
               pathname := pathOf (urlAfterHost rest),
               search := searchOf ((urlAfterHost rest).dropWhile (fun c => ¬ isPathEnd c)) }
    else none

def parseURL (s : String) : Option URLRec := parseURLChars s.data

/-! ## normalizePath (generate-api-skill.js, lines 36-52)

The source applies four global regex replaces to `u.pathname`, in order:
  1. `[0-9a-f]{8}-[0-9a-f]{4}-[0-9a-f]{4}-[0-9a-f]{4}-[0-9a-f]{12}` (i) -> `{uuid}`
  2. `\/[0-9a-f]{8,64}(?=\/|$)` (i) -> `/{hash}`
  3. `\/\d{2,}(?=\/|$)`            -> `/{id}`
  4. `\/\d{10,13}(?=\/|$)`         -> `/{ts}`
Rules 2-4 are anchored between `/` and (`/` or end), so on a pathname (which
always starts with `/`) they replace exactly the `/`-separated components
that are entirely matched; rule 1's alphabet excludes `/`, so its matches
never cross a component boundary.  We therefore embed the pipeline
segment-wise: split on `/`, rewrite each component, re-join. -/

def isHexChar (c : Char) : Bool :=
  c.isDigit ∨ ('a' ≤ c ∧ c ≤ 'f') ∨ ('A' ≤ c ∧ c ≤ 'F')

/-- Does `cs` start with the 8-4-4-4-12 UUID shape?  If so return the
remaining 36-char suffix. -/
def uuidPrefix (cs : List Char) : Option (List Char) :=
  let g1 := cs.take 8
  let r1 := cs.drop 8
  if g1.length = 8 ∧ g1.all isHexChar ∧ r1.take 1 = ['-'] then
    let g2 := (r1.drop 1).take 4
    let r2 := (r1.drop 1).drop 4
    if g2.length = 4 ∧ g2.all isHexChar ∧ r2.take 1 = ['-'] then
      let g3 := (r2.drop 1).take 4
      let r3 := (r2.drop 1).drop 4
      if g3.length = 4 ∧ g3.all isHexChar ∧ r3.take 1 = ['-'] then
        let g4 := (r3.drop 1).take 4
        let r4 := (r3.drop 1).drop 4
        if g4.length = 4 ∧ g4.all isHexChar ∧ r4.take 1 = ['-'] then
          let g5 := (r4.drop 1).take 12
          let r5 := (r4.drop 1).drop 12
          if g5.length = 12 ∧ g5.all isHexChar then some r5 else none
        else none
      else none
    else none
  else none

/-- Left-to-right, non-overlapping replacement of every UUID occurrence by
`{uuid}` (regex rule 1; the JS regex engine scans the same way). -/
def replaceUuidsAux : Nat → List Char → List Char
  | 0, cs => cs
  | fuel + 1, cs =>
    match uuidPrefix cs with
    | some rest => '\x7b' :: 'u' :: 'u' :: 'i' :: 'd' :: '\x7d' :: replaceUuidsAux fuel rest
    | none =>
      match cs with
      | [] => []
      | c :: rest => c :: replaceUuidsAux fuel rest

def replaceUuids (cs : List Char) : List Char := replaceUuidsAux cs.length cs

/-- One `/`-separated pathname component through regex rules 1-4 in order. -/
def normalizeSegment (seg : List Char) : List Char :=
  let s1 := replaceUuids seg
  let s2 := if s1.all isHexChar ∧ 8 ≤ s1.length ∧ s1.length ≤ 64 then
    ['\x7b', 'h', 'a', 's', 'h', '\x7d'] else s1
  let s3 := if s2.all Char.isDigit ∧ 2 ≤ s2.length then
    ['\x7b', 'i', 'd', '\x7d'] else s2
  let s4 := if s3.all Char.isDigit ∧ 10 ≤ s3.length ∧ s3.length ≤ 13 then
    ['\x7b', 't', 's', '\x7d'] else s3
  s4

/-- `String.prototype.split('/')` on a character list. -/
def splitSlash : List Char → List (List Char)
  | [] => [[]]
  | c :: rest =>
    if c = '/' then [] :: splitSlash rest
    else
      match splitSlash rest with
      | [] => [[c]]
      | s :: ss => (c :: s) :: ss

/-- Tail part of `Array.prototype.join('/')`: each later element is preceded
by the separator. -/
def joinSlashAux : List (List Char) → List Char
  | [] => []
  | s :: ss => '/' :: (s ++ joinSlashAux ss)

/-- `Array.prototype.join('/')`. -/
def joinSlash : List (List Char) → List Char
  | [] => []
  | s :: ss => s ++ joinSlashAux ss

def normalizePathChars (p : List Char) : List Char :=
  joinSlash ((splitSlash p).map normalizeSegment)

/-- `normalizePath(urlStr)`: parse, canonicalize the pathname; on a parse
failure return the input unchanged. -/
def normalizePath (s : String) : String :=
  match parseURL s with
  | none => s
  | some u => String.mk (normalizePathChars u.pathname)

/-- `endpointKey(method, url)`. -/
def endpointKey (method url : String) : String :=
  method ++ " " ++ normalizePath url

/-! ## capture-api.js: noise filter, redaction, truncation (lines 38-123) -/

/-- Does `hay` start with `needle`? -/
def listStartsWith : List Char → List Char → Bool
  | _, [] => true
  | [], _ :: _ => false
  | c :: cs, d :: ds => c = d && listStartsWith cs ds

/-- Substring containment at any position. -/
def containsSub : List Char → List Char → Bool
  | [], needle => needle.isEmpty
  | c :: cs, needle => listStartsWith (c :: cs) needle || containsSub cs needle

/-- `String.prototype.split('.')` on a character list. -/
def splitDot : List Char → List (List Char)
  | [] => [[]]
  | c :: rest =>
    if c = '.' then [] :: splitDot rest
    else
      match splitDot rest with
      | [] => [[c]]
      | s :: ss => (c :: s) :: ss

def joinDotAux : List (List Char) → List Char
  | [] => []
  | s :: ss => '.' :: (s ++ joinDotAux ss)

/-- `Array.prototype.join('.')`. -/
def joinDot : List (List Char) → List Char
  | [] => []
  | s :: ss => s ++ joinDotAux ss

/-- Does `hay` end with `needle`? -/
def listEndsWith (hay needle : List Char) : Bool :=
  listStartsWith hay.reverse needle.reverse

/-- `NOISE_DOMAINS` (capture-api.js lines 39-69), verbatim. -/
def NOISE_DOMAINS : List String := [
  "google-analytics.com", "www.google-analytics.com", "analytics.google.com",
  "googletagmanager.com", "www.googletagmanager.com",
  "googlesyndication.com", "pagead2.googlesyndication.com",
  "doubleclick.net", "ad.doubleclick.net",
  "google.com", "www.google.com",
  "facebook.com", "www.facebook.com", "connect.facebook.net",
  "facebook.net", "www.facebook.net",
  "stripe.com", "js.stripe.com", "api.stripe.com", "m.stripe.com",
  "sentry.io", "sentry-cdn.com",
  "hotjar.com", "static.hotjar.com", "script.hotjar.com",
  "segment.io", "api.segment.io", "cdn.segment.com",
  "datadome.co", "api-js.datadome.co",
  "recaptcha.net", "www.recaptcha.net",
  "gstatic.com", "www.gstatic.com",
  "newrelic.com", "bam.nr-data.net", "js-agent.newrelic.com",
  "fullstory.com", "rs.fullstory.com",
  "optimizely.com", "cdn.optimizely.com",
  "quantserve.com", "pixel.quantserve.com",
  "branch.io", "api.branch.io",
  "braze.com", "sdk.iad-01.braze.com",
  "amplitude.com", "api.amplitude.com",
  "mixpanel.com", "api.mixpanel.com",
  "intercom.io", "widget.intercom.io",
  "clarity.ms", "www.clarity.ms",
  "mouseflow.com",
  "crazyegg.com",
  "tiktok.com", "analytics.tiktok.com",
  "pinterest.com", "ct.pinterest.com",
  "snapchat.com", "tr.snapchat.com"]

/-- `isNoiseDomain(url)` (lines 75-88): exact hostname match, or any suffix of
its dot-separated labels starting at index `1 <= i < parts.length - 1`;
unparseable URLs are not noise. -/
def isNoiseDomain (url : String) : Bool :=
  match parseURL url with
  | none => false
  | some u =>
    if NOISE_DOMAINS.contains (String.mk u.hostname) then true
    else
      let parts := splitDot u.hostname
      (List.range parts.length).any (fun i =>
        decide (1 ≤ i) && decide (i < parts.length - 1) &&
          NOISE_DOMAINS.contains (String.mk (joinDot (parts.drop i))))

/-- The alternatives of `STATIC_EXTENSIONS` (line 71). -/
def STATIC_EXTS : List String :=
  ["js", "css", "png", "jpg", "jpeg", "gif", "svg", "ico", "woff", "woff2",
   "ttf", "eot", "map", "webp", "avif"]

/-- `isStaticAsset(url)` (lines 90-96): the case-insensitive regex
`\.(ext...)(\?|$)` against `pathname`; a pathname never contains `?`, so
this is an extension check at the end of the (lowercased) pathname. -/
def isStaticAsset (url : String) : Bool :=
  match parseURL url with
  | none => false
  | some u =>
    let p := u.pathname.map Char.toLower
    STATIC_EXTS.any (fun ext => listEndsWith p ('.' :: ext.data))

/-- `getDomain(url)` (lines 98-107): registrable domain = last two
dot-separated labels (or the whole hostname when it has at most two);
`'unknown'` when the URL does not parse. -/
def getDomain (url : String) : String :=
  match parseURL url with
  | none => "unknown"
  | some u =>
    let parts := splitDot u.hostname
    if 2 < parts.length then String.mk (joinDot (parts.drop (parts.length - 2)))
    else String.mk u.hostname

/-- The alternatives of `SENSITIVE_PATTERNS` (line 73) with each optional
`_?` expanded, all lowercase. -/
def SENSITIVE_WORDS : List String :=
  ["password", "passwd", "cardnumber", "card_number", "cardnum", "card_num",
   "cvv", "cvc", "ssn", "socialsecurity", "social_security",
   "secretkey", "secret_key", "privatekey", "private_key"]

/-- `SENSITIVE_PATTERNS.test(body)`: case-insensitive substring search. -/
def sensitiveTest (b : String) : Bool :=
  SENSITIVE_WORDS.any (fun w => containsSub (b.data.map Char.toLower) w.data)

/-- `redactBody(body)` (lines 109-113), with the CLI `--redact` flag as an
explicit parameter.  `!body` covers both `null` and the empty string. -/
def redactBody (redact : Bool) (body : Option String) : Option String :=
  match body with
  | none => none
  | some b =>
    if b = "" ∨ redact = false then some b
    else if sensitiveTest b then some "[REDACTED — sensitive data detected]"
    else some b

/-- `MAX_BODY_SIZE` (line 115). -/
def MAX_BODY_SIZE : Nat := 10 * 1024

/-- The trailing truncation marker of `truncateBody` for an original length
`n`. -/
def truncMarker (n : Nat) : String :=
  "\n...[truncated at 10240 bytes, total " ++ toString n ++ "]"

/-- `truncateBody(body)` (lines 117-123). -/
def truncateBody (body : Option String) : Option String :=
  match body with
  | none => none
  | some b =>
    if b = "" then some b
    else if MAX_BODY_SIZE < b.length then
      some (String.mk (b.data.take MAX_BODY_SIZE) ++ truncMarker b.length)
    else some b

/-! ## The capture entry (capture-api.js lines 214-224) -/

structure Entry where
  timestamp : String
  method : String
  url : String
  requestHeaders : List (String × String)
  requestBody : Option String
  resourceType : String
  responseStatus : Option Nat
  responseHeaders : List (String × String)
  responseBody : Option String
deriving DecidableEq

/-- Only `XHR`/`Fetch` resource types that are neither noise domains nor
static assets are tracked (lines 208-212). -/
def trackedRequest (rtype url : String) : Bool :=
  (rtype = "XHR" || rtype = "Fetch") && !isNoiseDomain url && !isStaticAsset url

/-- The `PendingRequest` created by the `Network.requestWillBeSent` handler
(lines 214-224).  `postData` is `req.postData || null`; the request body is
redacted but — unlike the response body — never truncated. -/
def mkPending (redact : Bool) (method url rtype : String)
    (reqHeaders : List (String × String)) (postData : Option String) : Entry :=
  { timestamp := "", method := method, url := url,
    requestHeaders := reqHeaders,
    requestBody := redactBody redact postData,
    resourceType := rtype,
    responseStatus := none, responseHeaders := [], responseBody := none }

/-- A 10241-character body, one over the 10 KiB cap. -/
def overCapBody : String := String.mk (List.replicate 10241 'a')


/-! ## The correlator state machine (capture-api.js lines 179-341)

The capture script is single-threaded and event-driven: the four
`Network.*` notification handlers and the shutdown routine never interleave
within themselves.  We model it as a step function over an explicit state.
`bodyFetch id res` models the resolution of the asynchronous
`Network.getResponseBody` call issued by the `loadingFinished` handler:
`res = some b` is a successful reply (the handler stores
`truncateBody(result.body || null)`), `res = none` is a rejected call (the
handler stores the entry unchanged).  `outstanding` is the set of issued
body fetches whose callback has not yet run; since `shutdown()` runs
synchronously through `process.exit(0)`, no handler or callback ever runs
after shutdown begins, which the `shuttingDown` guard models.  `storedLog`
records, as specification ghost data, the request identifier of every
`storeEntry` call in order; `written` records the domains whose session
files the shutdown write loop wrote, and `flushCount` how many times the
pending-flush loop ran.  The wall-clock `timestamp` field is abstracted as
`""` (no claim depends on it). -/

inductive Ev where
  | requestWillBeSent (id : Nat) (method url rtype : String)
      (headers : List (String × String)) (postData : Option String)
  | responseReceived (id : Nat) (status : Nat) (headers : List (String × String))
  | loadingFinished (id : Nat)
  | bodyFetch (id : Nat) (result : Option String)
  | loadingFailed (id : Nat) (errorText : String)
  | shutdownSig
deriving DecidableEq

structure CapSt where
  pending : List (Nat × Entry)
  outstanding : List (Nat × Entry)
  captured : List (String × List Entry)
  storedLog : List Nat
  shuttingDown : Bool
  written : List String
  flushCount : Nat
deriving DecidableEq

def initSt : CapSt :=
  { pending := [], outstanding := [], captured := [], storedLog := [],
    shuttingDown := false, written := [], flushCount := 0 }

/-- Append an entry to its domain bucket (`storeEntry`, lines 268-270). -/
def appendAt (d : String) (e : Entry) :
    List (String × List Entry) → List (String × List Entry)
  | [] => [(d, [e])]
  | (d', l) :: rest =>
    if d' = d then (d', l ++ [e]) :: rest else (d', l) :: appendAt d e rest

/-- `storeEntry(entry)` (lines 267-275). -/
def storeEntry (s : CapSt) (id : Nat) (e : Entry) : CapSt :=
  { s with captured := appendAt (getDomain e.url) e s.captured,
           storedLog := s.storedLog ++ [id] }

/-- The shutdown flush loop (lines 306-309): store every still-pending
entry, then clear the map. -/
def flushPending (s : CapSt) : CapSt :=
  let s2 := s.pending.foldl (fun acc p => storeEntry acc p.1 p.2) s
  { s2 with pending := [] }

/-- The shutdown write loop (lines 315-331): one session file per domain of
`capturedByDomain`, in map order. -/
def writeFiles (s : CapSt) : CapSt :=
  { s with written := s.captured.map Prod.fst }

/-- One step of the correlator (the `ws.on('message')` handler, lines
198-262, plus `shutdown()`, lines 296-340). -/
def step (redact : Bool) (s : CapSt) (e : Ev) : CapSt :=
  if s.shuttingDown then s
  else
    match e with
    | .requestWillBeSent id method url rtype hdrs postData =>
      if trackedRequest rtype url then
        { s with pending := nset id (mkPending redact method url rtype hdrs postData) s.pending }
      else s
    | .responseReceived id status hdrs =>
      match nlookup id s.pending with
      | none => s
      | some en =>
        { s with pending := nset id { en with responseStatus := some status, responseHeaders := hdrs } s.pending }
    | .loadingFinished id =>
      match nlookup id s.pending with
      | none => s
      | some en =>
        { s with pending := nerase id s.pending, outstanding := nset id en s.outstanding }
    | .bodyFetch id res =>
      match nlookup id s.outstanding with
      | none => s
      | some en =>
        let en2 := match res with
          | some b =>
            { en with responseBody := truncateBody (if b = "" then none else some b) }
          | none => en
        storeEntry { s with outstanding := nerase id s.outstanding } id en2
    | .loadingFailed id err =>
      match nlookup id s.pending with
      | none => s
      | some en =>
        storeEntry { s with pending := nerase id s.pending } id
          { en with responseStatus := some 0,
                    responseBody := some ("[failed: " ++ err ++ "]") }
    | .shutdownSig =>
      writeFiles (flushPending
        { s with shuttingDown := true, flushCount := s.flushCount + 1 })

def runEvs (redact : Bool) (s : CapSt) (tr : List Ev) : CapSt :=
  tr.foldl (step redact) s

/-! ### Per-identifier projection machinery for the exactly-once analysis -/

def evId : Ev → Option Nat
  | .requestWillBeSent id _ _ _ _ _ => some id
  | .responseReceived id _ _ => some id
  | .loadingFinished id => some id
  | .bodyFetch id _ => some id
  | .loadingFailed id _ => some id
  | .shutdownSig => none

/-- The subsequence of events carrying identifier `id`. -/
def idEvs (id : Nat) (tr : List Ev) : List Ev :=
  tr.filter (fun e => evId e = some id)

/-- No shutdown trigger occurs in the trace. -/
def noShut (tr : List Ev) : Bool := tr.all (fun e => e ≠ Ev.shutdownSig)

/-- Projection of the state onto one identifier: (is it pending, does it
have an outstanding body fetch, how many times has it been stored). -/
def projOf (id : Nat) (s : CapSt) : Bool × Bool × Nat :=
  ((nlookup id s.pending).isSome, (nlookup id s.outstanding).isSome,
   s.storedLog.count id)

/-- How one of the identifier's own events moves its projection. -/
def projStep : Bool × Bool × Nat → Ev → Bool × Bool × Nat
  | (pe, o, n), .requestWillBeSent _ _ url rtype _ _ =>
    if trackedRequest rtype url then (true, o, n) else (pe, o, n)
  | p, .responseReceived _ _ _ => p
  | (pe, o, n), .loadingFinished _ => if pe then (false, true, n) else (pe, o, n)
  | (pe, o, n), .bodyFetch _ _ => if o then (pe, false, n + 1) else (pe, o, n)
  | (pe, o, n), .loadingFailed _ _ => if pe then (false, o, n + 1) else (pe, o, n)
  | p, .shutdownSig => p

def isSentEv : Ev → Bool
  | .requestWillBeSent _ _ _ _ _ _ => true
  | _ => false

def isHeadersEv : Ev → Bool
  | .responseReceived _ _ _ => true
  | _ => false

def isFinishedEv : Ev → Bool
  | .loadingFinished _ => true
  | _ => false

def isFetchEv : Ev → Bool
  | .bodyFetch _ _ => true
  | _ => false

def isFailedEv : Ev → Bool
  | .loadingFailed _ _ => true
  | _ => false

/-- The per-identifier lifecycle orders the claim quantifies over:
sent, optionally headers, then nothing / finished [+ body-fetch
resolution] / failed. -/
def okPattern : List Ev → Bool
  | [a] => isSentEv a
  | [a, b] => isSentEv a && (isHeadersEv b || isFinishedEv b || isFailedEv b)
  | [a, b, c] => isSentEv a &&
      ((isHeadersEv b && (isFinishedEv c || isFailedEv c)) ||
       (isFinishedEv b && isFetchEv c))
  | [a, b, c, d] => isSentEv a && isHeadersEv b && isFinishedEv c && isFetchEv d
  | _ => false

/-- Like `okPattern`, but every `loadingFinished` is followed by its
body-fetch resolution before the trace ends (so shutdown does not race an
outstanding fetch). -/
def completePattern : List Ev → Bool
  | [a] => isSentEv a
  | [a, b] => isSentEv a && (isHeadersEv b || isFailedEv b)
  | [a, b, c] => isSentEv a &&
      ((isHeadersEv b && isFailedEv c) || (isFinishedEv b && isFetchEv c))
  | [a, b, c, d] => isSentEv a && isHeadersEv b && isFinishedEv c && isFetchEv d
  | _ => false

/-- Does the identifier's first event create a `PendingRequest` (a tracked
`requestWillBeSent`)? -/
def trackedSentHead : List Ev → Bool
  | (.requestWillBeSent _ _ url rtype _ _) :: _ => trackedRequest rtype url
  | _ => false

/-- Key-uniqueness invariant of the three maps. -/
def StInv (s : CapSt) : Prop :=
  (s.pending.map Prod.fst).Nodup ∧ (s.outstanding.map Prod.fst).Nodup ∧
    (s.captured.map Prod.fst).Nodup


/-- The number of times one identifier ends up stored: the stores its own
events performed, plus the shutdown flush if it is still pending. -/
def finalCount (l : List Ev) : Nat :=
  (l.foldl projStep (false, false, 0)).2.2 +
    (if (l.foldl projStep (false, false, 0)).1 = true then 1 else 0)

/-- The write-once discipline of `shutdown()` (lines 295-340): before the
idempotency flag is set nothing has been written or flushed; once it is set,
the write loop has emitted exactly the captured domains, the flush ran
exactly once, and the in-flight map is empty. -/
def WFlag (s : CapSt) : Prop :=
  if s.shuttingDown = true then
    s.written = s.captured.map Prod.fst ∧ s.flushCount = 1 ∧ s.pending = []
  else s.written = [] ∧ s.flushCount = 0

/-- A complete tracked lifecycle: sent, headers, finished, body fetched. -/
def capTraceW : List Ev :=
  [Ev.requestWillBeSent 1 "GET" "https://api.example.com/data" "XHR" [] none,
   Ev.responseReceived 1 200 [],
   Ev.loadingFinished 1,
   Ev.bodyFetch 1 (some "ok")]

/-- A lifecycle whose body fetch is still outstanding when shutdown fires. -/
def capTraceDrop : List Ev :=
  [Ev.requestWillBeSent 1 "GET" "https://api.example.com/data" "XHR" [] none,
   Ev.loadingFinished 1,
   Ev.shutdownSig]

/-- One captured (failed) request followed by two shutdown triggers in quick
succession (duration timer, then signal). -/
def doubleShutTrace : List Ev :=
  [Ev.requestWillBeSent 1 "GET" "https://api.example.com/data" "XHR" [] none,
   Ev.loadingFailed 1 "net::ERR_ABORTED",
   Ev.shutdownSig, Ev.shutdownSig]

/-- An entry whose URL does not parse. -/
def badUrlEntry : Entry :=
  { timestamp := "", method := "GET", url := "::nope::", requestHeaders := [],
    requestBody := none, resourceType := "XHR", responseStatus := none,
    responseHeaders := [], responseBody := none }


/-! ## Auth-pattern detection (generate-api-skill.js lines 104-132, 211-221) -/

/-- `s.toLowerCase()`. -/
def lowerStr (s : String) : String := String.mk (s.data.map Char.toLower)

/-- `String.prototype.split(';')` on a character list. -/
def splitSemi : List Char → List (List Char)
  | [] => [[]]
  | c :: rest =>
    if c = ';' then [] :: splitSemi rest
    else
      match splitSemi rest with
      | [] => [[c]]
      | s :: ss => (c :: s) :: ss

def isJsWs (c : Char) : Bool := c = ' ' ∨ c = '\t' ∨ c = '\n' ∨ c = '\r'

/-- `String.prototype.trim()` (over the ASCII whitespace this code meets). -/
def trimChars (cs : List Char) : List Char :=
  ((cs.dropWhile isJsWs).reverse.dropWhile isJsWs).reverse

/-- Cookie-name extraction (line 123):
`value.split(';').map(c => c.trim().split('=')[0]).filter(Boolean)`. -/
def cookieNamesOf (v : String) : List String :=
  (((splitSemi v.data).map
      (fun c => (trimChars c).takeWhile (fun ch => ch ≠ '='))).map String.mk).filter
    (fun n => n ≠ "")

/-- One header through the three independent checks of `detectAuthPatterns`
(lines 110-127), updating the `(authHeaders, cookieNames)` count maps. -/
def authScanHeader (maps : List (String × Nat) × List (String × Nat))
    (kv : String × String) : List (String × Nat) × List (String × Nat) :=
  let lower := lowerStr kv.1
  let auth1 :=
    if lower = "authorization" then
      let scheme0 := kv.2.data.takeWhile (fun c => c ≠ ' ')
      let scheme := if scheme0 = [] then "unknown" else String.mk scheme0
      bump ("Authorization: " ++ scheme ++ " ...") maps.1
    else maps.1
  let auth2 :=
    if containsSub lower.data "csrf".data ∨ containsSub lower.data "token".data ∨
        containsSub lower.data "x-api".data then
      bump kv.1 auth1
    else auth1
  let cookies :=
    if lower = "cookie" then
      (cookieNamesOf kv.2).foldl (fun m n => bump n m) maps.2
    else maps.2
  (auth2, cookies)

/-- `detectAuthPatterns(requests)` (lines 104-132): scan every request's
headers in order; returns (authHeaders, cookieNames) count maps. -/
def detectAuthPatterns (requests : List Entry) :
    List (String × Nat) × List (String × Nat) :=
  requests.foldl (fun maps req => req.requestHeaders.foldl authScanHeader maps) ([], [])

/-- The consistency test `count >= Math.max(1, requests.length * 0.5)`
(lines 212-214).  `n * 0.5` is exact in binary floating point, so the
comparison is exactly `2 * count >= max(2, n)` over the integers. -/
def meetsThreshold (count n : Nat) : Bool := decide (max 2 n ≤ 2 * count)

/-- Stable insertion into a list sorted by descending second component
(ties keep earlier elements first, as the ES2019+ stable
`sort((a, b) => b[1] - a[1])` does). -/
def insDescSnd {α : Type} (x : α × Nat) : List (α × Nat) → List (α × Nat)
  | [] => [x]
  | y :: ys => if x.2 ≤ y.2 then y :: insDescSnd x ys else x :: y :: ys

/-- Stable sort by descending count. -/
def sortDescSnd {α : Type} : List (α × Nat) → List (α × Nat)
  | [] => []
  | x :: xs => insDescSnd x (sortDescSnd xs)

/-- `consistentCookies` (lines 213-216): filter by threshold, sort by
descending frequency, keep the names. -/
def consistentCookies (requests : List Entry) : List String :=
  (sortDescSnd (((detectAuthPatterns requests).2).filter
    (fun p => meetsThreshold p.2 requests.length))).map Prod.fst

/-- `consistentAuthHeaders` (lines 219-221). -/
def consistentAuthHeaders (requests : List Entry) : List (String × Nat) :=
  sortDescSnd (((detectAuthPatterns requests).1).filter
    (fun p => meetsThreshold p.2 requests.length))

/-- A request carrying one Cookie header. -/
def mkCookieReq (v : String) : Entry :=
  { timestamp := "", method := "GET", url := "https://app.example.com/api",
    requestHeaders := [("Cookie", v)], requestBody := none, resourceType := "XHR",
    responseStatus := some 200, responseHeaders := [], responseBody := none }

/-- Ten requests: `session_id` appears in six of them, `tracker` in four. -/
def corpus10 : List Entry :=
  List.replicate 6 (mkCookieReq "session_id=abc123") ++
    List.replicate 4 (mkCookieReq "tracker=xyz")

/-! ## Schema inference (generate-api-skill.js lines 72-101)

`JSON.parse` is a platform primitive; we model the JSON grammar this code
meets (objects, arrays, integer numbers, escape-free strings, booleans,
null, ASCII whitespace) with a fuel-based recursive-descent parser; anything
outside the subset fails to parse, which — like a real parse error — makes
`inferSchema` yield `none`. -/

inductive Json where
  | null
  | bool (b : Bool)
  | num (n : Int)
  | str (s : String)
  | arr (xs : List Json)
  | obj (fields : List (String × Json))

def skipWs : List Char → List Char
  | [] => []
  | c :: rest => if isJsWs c then skipWs rest else c :: rest

def parseStrBody : List Char → Option (List Char × List Char)
  | [] => none
  | c :: rest =>
    if c = '"' then some ([], rest)
    else if c = '\\' then none
    else (parseStrBody rest).map (fun p => (c :: p.1, p.2))

def digitsToNat (ds : List Char) : Nat :=
  ds.foldl (fun acc d => acc * 10 + (d.toNat - '0'.toNat)) 0

mutual

def parseVal : Nat → List Char → Option (Json × List Char)
  | 0, _ => none
  | fuel + 1, cs =>
    match skipWs cs with
    | [] => none
    | c :: rest =>
      if c = '"' then
        (parseStrBody rest).map (fun p => (Json.str (String.mk p.1), p.2))
      else if c = '[' then
        match skipWs rest with
        | ']' :: rest2 => some (Json.arr [], rest2)
        | _ => (parseArrItems fuel rest).map (fun p => (Json.arr p.1, p.2))
      else if c = '\x7b' then
        match skipWs rest with
        | '\x7d' :: rest2 => some (Json.obj [], rest2)
        | _ => (parseObjItems fuel rest).map (fun p => (Json.obj p.1, p.2))
      else if c = 't' then
        if rest.take 3 = ['r', 'u', 'e'] then some (Json.bool true, rest.drop 3) else none
      else if c = 'f' then
        if rest.take 4 = ['a', 'l', 's', 'e'] then some (Json.bool false, rest.drop 4)
        else none
      else if c = 'n' then
        if rest.take 3 = ['u', 'l', 'l'] then some (Json.null, rest.drop 3) else none
      else if c = '-' then
        let digits := rest.takeWhile Char.isDigit
        if digits = [] then none
        else some (Json.num (-(digitsToNat digits : Int)), rest.dropWhile Char.isDigit)
      else if c.isDigit then
        let digits := (c :: rest).takeWhile Char.isDigit
        some (Json.num (digitsToNat digits : Int), (c :: rest).dropWhile Char.isDigit)
      else none

def parseArrItems : Nat → List Char → Option (List Json × List Char)
  | 0, _ => none
  | fuel + 1, cs =>
    match parseVal fuel cs with
    | none => none
    | some (v, rest) =>
      match skipWs rest with
      | ',' :: rest2 => (parseArrItems fuel rest2).map (fun p => (v :: p.1, p.2))
      | ']' :: rest2 => some ([v], rest2)
      | _ => none

def parseObjItems : Nat → List Char → Option (List (String × Json) × List Char)
  | 0, _ => none
  | fuel + 1, cs =>
    match skipWs cs with
    | '"' :: rest =>
      match parseStrBody rest with
      | none => none
      | some (k, rest2) =>
        match skipWs rest2 with
        | ':' :: rest3 =>
          match parseVal fuel rest3 with
          | none => none
          | some (v, rest4) =>
            match skipWs rest4 with
            | ',' :: rest5 =>
              (parseObjItems fuel rest5).map (fun p => ((String.mk k, v) :: p.1, p.2))
            | '\x7d' :: rest5 => some ([(String.mk k, v)], rest5)
            | _ => none
        | _ => none
    | _ => none

end

/-- Model of `JSON.parse(jsonStr)` over the grammar subset above. -/
def jsonParse (s : String) : Option Json :=
  match parseVal (s.length + 1) s.data with
  | none => none
  | some (v, rest) => if skipWs rest = [] then some v else none

/-- `describeType(val, depth, maxDepth)` (lines 82-101), with
`fuel = maxDepth - depth` as the remaining depth budget (`depth >= maxDepth`
iff the budget is 0). -/
def describeTypeF : Nat → Json → String
  | _, .null => "null"
  | _, .bool _ => "boolean"
  | _, .num _ => "number"
  | _, .str s =>
    if s.length > 80 then "string (" ++ toString s.length ++ " chars)"
    else "\"" ++ s ++ "\""
  | _, .arr [] => "[]"
  | 0, .arr xs => "[..." ++ toString xs.length ++ " items]"
  | fuel + 1, .arr (x :: xs) =>
    "[" ++ describeTypeF fuel x ++ "] (" ++ toString (xs.length + 1) ++ " items)"
  | 0, .obj fs => "\x7b..." ++ toString fs.length ++ " keys\x7d"
  | fuel + 1, .obj fs =>
    let entries := fs.take 15
    let fields := entries.map (fun kv => "  " ++ kv.1 ++ ": " ++ describeTypeF fuel kv.2)
    let extra :=
      if fs.length > 15 then "\n  ..." ++ toString (fs.length - 15) ++ " more keys"
      else ""
    "\x7b\n" ++ String.intercalate "\n" fields ++ extra ++ "\n\x7d"

def describeType (val : Json) (depth maxDepth : Nat) : String :=
  describeTypeF (maxDepth - depth) val

/-- `inferSchema(jsonStr, maxDepth = 2)` (lines 72-80): `none` on a parse
failure, else the description from depth 0. -/
def inferSchema (jsonStr : String) (maxDepth : Nat) : Option String :=
  (jsonParse jsonStr).map (fun v => describeType v 0 maxDepth)


/-! ## The SKILL.md renderer (generate-api-skill.js lines 135-397)

The renderer is modelled as the list of lines `main()` pushes (the file
content is their join with a newline plus a trailing newline).  `domain` and
`skillName` are the CLI-derived values, `today` is
`new Date().toISOString().split('T')[0]` — the only clock read in the
rendering path. -/

structure Capture where
  duration : Option Nat
  cdpPort : Option Nat
  requests : List Entry

/-- An entry of the `endpoints` map (lines 181-203). -/
structure EndpointAcc where
  method : String
  normalizedPath : String
  reqs : List Entry
  queryParams : List String

/-- Insertion-ordered `Set.add`. -/
def addUniq (x : String) (l : List String) : List String :=
  if l.contains x then l else l ++ [x]

/-- `String.prototype.split('&')` on a character list. -/
def splitAmp : List Char → List (List Char)
  | [] => [[]]
  | c :: rest =>
    if c = '&' then [] :: splitAmp rest
    else
      match splitAmp rest with
      | [] => [[c]]
      | s :: ss => (c :: s) :: ss

/-- The keys yielded by `u.searchParams` (percent-decoding not modelled):
`&`-separated nonempty pieces, each up to its first `=`. -/
def queryKeys (search : List Char) : List String :=
  ((splitAmp search).filter (fun p => p ≠ [])).map
    (fun p => String.mk (p.takeWhile (fun c => c ≠ '=')))

def searchParamKeys (url : String) : List String :=
  match parseURL url with
  | none => []
  | some u => queryKeys u.search

/-- In-place update of an association-list value. -/
def aupdate {β : Type} (k : String) (f : β → β) : List (String × β) → List (String × β)
  | [] => []
  | (k', v) :: rest => if k' = k then (k', f v) :: rest else (k', v) :: aupdate k f rest

/-- One request through the grouping loop (lines 183-203): get-or-create the
endpoint bucket, push the request, collect its query-parameter names. -/
def addReqToEndpoints (m : List (String × EndpointAcc)) (req : Entry) :
    List (String × EndpointAcc) :=
  let key := endpointKey req.method req.url
  let m2 :=
    if (alookup key m).isSome then m
    else m ++ [(key, { method := req.method, normalizedPath := normalizePath req.url,
                       reqs := [], queryParams := [] })]
  aupdate key (fun ep =>
    { ep with reqs := ep.reqs ++ [req],
              queryParams := (searchParamKeys req.url).foldl
                (fun qs k2 => addUniq k2 qs) ep.queryParams }) m2

def groupEndpoints (requests : List Entry) : List (String × EndpointAcc) :=
  requests.foldl addReqToEndpoints []

/-- `[...endpoints.values()].sort((a, b) => b.requests.length - a.requests.length)`
(line 206), as a stable descending sort keyed by request count. -/
def sortEndpoints (l : List EndpointAcc) : List EndpointAcc :=
  (sortDescSnd (l.map (fun e => (e, e.reqs.length)))).map Prod.fst

/-- JS truthiness of a nullable string (`null`, `undefined` and `''` are
falsy). -/
def truthyOpt : Option String → Bool
  | none => false
  | some s => s ≠ ""

/-- `r.responseStatus >= 200 && r.responseStatus < 400` (`null` compares
false). -/
def statusOk : Option Nat → Bool
  | none => false
  | some st => 200 ≤ st ∧ st < 400

/-- The placeholder record for `ep.requests[0]` on an empty bucket
(unreachable: a bucket is created only when its first request is pushed). -/
def emptyEntry : Entry :=
  { timestamp := "", method := "", url := "", requestHeaders := [],
    requestBody := none, resourceType := "", responseStatus := none,
    responseHeaders := [], responseBody := none }

/-- The representative example (lines 291-292). -/
def representativeOf (reqs : List Entry) : Entry :=
  match reqs.find? (fun r => truthyOpt r.responseBody && statusOk r.responseStatus) with
  | some r => r
  | none => reqs.headD emptyEntry

/-- `r.responseStatus || 0` (line 301). -/
def statusKey (r : Entry) : Nat :=
  match r.responseStatus with
  | none => 0
  | some st => st

/-- Counter bump for `Nat` keys. -/
def nbump (k : Nat) : List (Nat × Nat) → List (Nat × Nat)
  | [] => [(k, 1)]
  | (k', c) :: rest => if k' = k then (k', c + 1) :: rest else (k', c) :: nbump k rest

/-- Ascending insertion by first component: JS objects iterate integer-like
keys in ascending numeric order, which is how `Object.entries(statusCounts)`
comes out (line 304). -/
def insAscFst (x : Nat × Nat) : List (Nat × Nat) → List (Nat × Nat)
  | [] => [x]
  | y :: ys => if y.1 ≤ x.1 then y :: insAscFst x ys else x :: y :: ys

def sortAscFst : List (Nat × Nat) → List (Nat × Nat)
  | [] => []
  | x :: xs => insAscFst x (sortAscFst xs)

/-- `skipHeaders` (lines 313-317), verbatim. -/
def skipHeaders : List String :=
  ["cookie", "host", "user-agent", "accept", "accept-language",
   "accept-encoding", "connection", "referer", "sec-ch-ua", "sec-ch-ua-mobile",
   "sec-ch-ua-platform", "sec-fetch-dest", "sec-fetch-mode", "sec-fetch-site",
   "origin", "pragma", "cache-control", "content-length", "if-none-match",
   "if-modified-since"]

/-- `headers['Content-Type'] || headers['content-type'] || ''` (line 329):
case-sensitive property access with JS falsy fallback. -/
def contentTypeOf (headers : List (String × String)) : String :=
  match alookup "Content-Type" headers with
  | some v => if v ≠ "" then v else
      match alookup "content-type" headers with
      | some v2 => if v2 ≠ "" then v2 else ""
      | none => ""
  | none =>
      match alookup "content-type" headers with
      | some v2 => if v2 ≠ "" then v2 else ""
      | none => ""

/-- The curl invocation block (lines 308-338). -/
def curlLines (rep : Entry) : List String :=
  let headerParts := (rep.requestHeaders.filter
      (fun kv => !skipHeaders.contains (lowerStr kv.1))).map
    (fun kv =>
      let displayVal :=
        if kv.2.data.length > 80 then String.mk (kv.2.data.take 80) ++ "..." else kv.2
      "  -H '" ++ kv.1 ++ ": " ++ displayVal ++ "'")
  let bodyParts :=
    match rep.requestBody with
    | none => []
    | some body =>
      if body ≠ "" then
        let ct := contentTypeOf rep.requestHeaders
        let dLine := "  -d '" ++ String.mk (body.data.take 500) ++ "'"
        if containsSub ct.data "json".data then
          ["  -H 'Content-Type: application/json'", dLine]
        else [dLine]
      else []
  let curlParts := ("curl -s '" ++ rep.url ++ "'") :: "  -H 'Cookie: $COOKIES'" ::
    (headerParts ++ bodyParts)
  ["```bash", String.intercalate " \\\n" curlParts, "```", ""]

/-- The request-body schema block (lines 343-352). -/
def requestSchemaLines (method : String) (rep : Entry) : List String :=
  match rep.requestBody with
  | none => []
  | some body =>
    if body ≠ "" ∧ (method = "POST" ∨ method = "PUT" ∨ method = "PATCH") then
      match inferSchema body 2 with
      | some schema =>
        if schema ≠ "" then ["**Request body schema:**", "```", schema, "```", ""]
        else []
      | none => []
    else []

/-- The response schema block (lines 355-364): emitted only when the
representative's response body is truthy and does not start with `[`. -/
def responseSchemaLines (rep : Entry) : List String :=
  match rep.responseBody with
  | none => []
  | some b =>
    if b ≠ "" ∧ listStartsWith b.data ['['] = false then
      match inferSchema b 2 with
      | some schema =>
        if schema ≠ "" then ["**Response schema:**", "```", schema, "```", ""]
        else []
      | none => []
    else []

/-- One endpoint section (lines 282-365). -/
def renderEndpoint (ep : EndpointAcc) : List String :=
  let queryStr :=
    if ep.queryParams.length > 0 then
      "?" ++ String.intercalate "&"
        (ep.queryParams.map (fun k => k ++ "=\x7b" ++ k ++ "\x7d"))
    else ""
  let rep := representativeOf ep.reqs
  let statusCounts := ep.reqs.foldl (fun m r => nbump (statusKey r) m) []
  ("### " ++ ep.method ++ " " ++ ep.normalizedPath ++ queryStr ++ "  (observed " ++
      toString ep.reqs.length ++ "x)") ::
  "" ::
  ("**Example URL:** `" ++ rep.url ++ "`") ::
  "" ::
  ("**Status codes:** " ++ String.intercalate ", "
      ((sortAscFst statusCounts).map (fun p => toString p.1 ++ " (" ++ toString p.2 ++ "x)"))) ::
  "" ::
  (curlLines rep ++ requestSchemaLines ep.method rep ++ responseSchemaLines rep)

/-- Frontmatter (lines 232-237). -/
def frontmatterLines (domain skillName : String) : List String :=
  ["---",
   "name: " ++ skillName,
   "description: \"" ++ domain ++
     " internal API — learned endpoints for direct curl access. Use instead of browser for repeat tasks.\"",
   "metadata: \x7b\"openclaw\":\x7b\"emoji\":\"🔌\"\x7d\x7d",
   "---",
   ""]

/-- `capture.duration || '?'` (line 243). -/
def durationStr (c : Capture) : String :=
  match c.duration with
  | none => "?"
  | some d => if d = 0 then "?" else toString d

/-- `capture.cdpPort || 9222` (lines 251, 380). -/
def portStr (c : Capture) : String :=
  match c.cdpPort with
  | none => "9222"
  | some p => if p = 0 then "9222" else toString p

/-- Everything after the title line (lines 242-382). -/
def afterTitleLines (domain skillName : String) (c : Capture) : List String :=
  let requests := c.requests
  let authHeaders := consistentAuthHeaders requests
  let cookies := consistentCookies requests
  let eps := sortEndpoints ((groupEndpoints requests).map Prod.snd)
  "" ::
  "**WARNING:** Undocumented internal APIs learned by traffic capture. May change without notice." ::
  ("Captured from " ++ toString requests.length ++ " API calls over " ++
      durationStr c ++ "s.") ::
  "" ::
  "## Authentication" ::
  "" ::
  "Cookie-based. Extract fresh cookies before each session:" ::
  "```bash" ::
  ("/opt/OpenClaw/scripts/extract-cookies.js --domain " ++ domain ++ " --port " ++
      portStr c) ::
  "```" ::
  "" ::
  ((if authHeaders.length > 0 then
      "### Required headers" :: "```" :: (authHeaders.map Prod.fst ++
        ["Cookie: <output from extract-cookies.js>", "```", ""])
    else
      ["### Required headers", "```", "Cookie: <output from extract-cookies.js>",
       "```", ""]) ++
   (if cookies.length > 0 then
      ["### Key cookies (present in >50% of requests)",
       "`" ++ String.intercalate "`, `" (cookies.take 20) ++ "`",
       ""]
    else []) ++
   ("## Endpoints" :: "" :: (eps.flatMap renderEndpoint)) ++
   ["## Fallback",
    "",
    "If API calls return 401/403:",
    "1. Re-extract cookies using the command above",
    "2. If still failing, the site may have changed its auth mechanism",
    "3. Fall back to using the `browser` tool",
    "4. Report to Gannon that the API skill needs re-capture",
    "",
    "## Re-capture",
    "",
    "If endpoints have changed or new endpoints are needed:",
    "```bash",
    "/opt/OpenClaw/scripts/capture-api.js --port " ++ portStr c ++ " --duration 300",
    "/opt/OpenClaw/scripts/generate-api-skill.js --domain " ++ domain ++ " --name " ++
      skillName,
    "```"])

/-- The full line list of the generated SKILL.md. -/
def renderLines (domain skillName today : String) (c : Capture) : List String :=
  frontmatterLines domain skillName ++
    ("# " ++ domain ++ " API (learned " ++ today ++ ")") ::
      afterTitleLines domain skillName c

/-- `lines.join('\n') + '\n'` (line 384). -/
def renderSkill (domain skillName today : String) (c : Capture) : String :=
  String.intercalate "\n" (renderLines domain skillName today c) ++ "\n"

/-- A one-request capture for concrete rendering. -/
def cexCapture : Capture :=
  { duration := some 300, cdpPort := some 9222,
    requests := [{ timestamp := "t", method := "GET", url := "https://a.com/x",
                   requestHeaders := [], requestBody := none, resourceType := "XHR",
                   responseStatus := some 200, responseHeaders := [],
                   responseBody := none }] }

/-! ## Theorems -/

/-! ### Association list facts -/

theorem nlookup_nset_self {β : Type} (k : Nat) (v : β) (l : List (Nat × β)) :
    nlookup k (nset k v l) = some v := by
  induction l with
  | nil => simp [nset, nlookup]
  | cons hd tl ih =>
    obtain ⟨k', v'⟩ := hd
    by_cases h : k' = k <;> simp [nset, nlookup, h, ih]

theorem nlookup_nset_ne {β : Type} (k j : Nat) (v : β) (l : List (Nat × β)) (h : j ≠ k) :
    nlookup k (nset j v l) = nlookup k l := by
  induction l with
  | nil => simp [nset, nlookup, h]
  | cons hd tl ih =>
    obtain ⟨k', v'⟩ := hd
    by_cases hk : k' = j
    · subst hk; simp [nset, nlookup, h, ih]
    · simp only [nset, if_neg hk, nlookup]
      by_cases hk2 : k' = k
      · simp [hk2]
      · simp [hk2, ih]

theorem nlookup_nerase_self {β : Type} (k : Nat) (l : List (Nat × β))
    (hnd : (l.map Prod.fst).Nodup) : nlookup k (nerase k l) = none := by
  induction l with
  | nil => simp [nerase, nlookup]
  | cons hd tl ih =>
    obtain ⟨k', v'⟩ := hd
    simp only [List.map_cons, List.nodup_cons] at hnd
    by_cases h : k' = k
    · subst h
      simp only [nerase, if_pos rfl]
      -- k' not among tail keys, so lookup in the tail misses
      clear ih
      induction tl with
      | nil => simp [nlookup]
      | cons hd2 tl2 ih2 =>
        obtain ⟨k2, v2⟩ := hd2
        simp only [List.map_cons, List.mem_cons, List.nodup_cons] at hnd
        have hne : k2 ≠ k' := fun he => hnd.1 (Or.inl he.symm)
        simp only [nlookup, if_neg hne]
        exact ih2 ⟨fun hm => hnd.1 (Or.inr hm), hnd.2.2⟩
    · simp only [nerase, if_neg h, nlookup, if_neg h]
      exact ih hnd.2

theorem nlookup_nerase_ne {β : Type} (k j : Nat) (l : List (Nat × β)) (h : j ≠ k) :
    nlookup k (nerase j l) = nlookup k l := by
  induction l with
  | nil => simp [nerase, nlookup]
  | cons hd tl ih =>
    obtain ⟨k', v'⟩ := hd
    by_cases hk : k' = j
    · subst hk; simp [nerase, nlookup, h, ih]
    · simp only [nerase, if_neg hk, nlookup]
      by_cases hk2 : k' = k
      · simp [hk2]
      · simp [hk2, ih]

theorem keys_nset {β : Type} (k : Nat) (v : β) (l : List (Nat × β)) :
    ((nset k v l).map Prod.fst) = if (nlookup k l).isSome then l.map Prod.fst
      else l.map Prod.fst ++ [k] := by
  induction l with
  | nil => simp [nset, nlookup]
  | cons hd tl ih =>
    obtain ⟨k', v'⟩ := hd
    by_cases h : k' = k <;> simp [nset, nlookup, h, ih] <;> split <;> simp

theorem nlookup_isSome_of_mem {β : Type} (k : Nat) (l : List (Nat × β))
    (hmem : k ∈ l.map Prod.fst) : (nlookup k l).isSome := by
  induction l with
  | nil => simp at hmem
  | cons hd tl ih =>
    obtain ⟨k', v'⟩ := hd
    by_cases he : k' = k
    · simp [nlookup, he]
    · simp only [List.map_cons, List.mem_cons] at hmem
      rcases hmem with h1 | h2
      · exact absurd h1.symm he
      · simpa [nlookup, he] using ih h2

theorem keys_nset_nodup {β : Type} (k : Nat) (v : β) (l : List (Nat × β))
    (hnd : (l.map Prod.fst).Nodup) : ((nset k v l).map Prod.fst).Nodup := by
  rw [keys_nset]
  split
  · exact hnd
  · next hmiss =>
    have hk : k ∉ l.map Prod.fst := fun hmem => hmiss (nlookup_isSome_of_mem k l hmem)
    simp [List.nodup_append, hnd, hk]

theorem keys_nerase_sublist {β : Type} (k : Nat) (l : List (Nat × β)) :
    ((nerase k l).map Prod.fst).Sublist (l.map Prod.fst) := by
  induction l with
  | nil => simp [nerase]
  | cons hd tl ih =>
    obtain ⟨k', v'⟩ := hd
    by_cases h : k' = k
    · simp only [nerase, if_pos h, List.map_cons]
      exact List.sublist_cons_self _ _
    · simpa [nerase, h] using ih.cons₂ k'

theorem keys_nerase_nodup {β : Type} (k : Nat) (l : List (Nat × β))
    (hnd : (l.map Prod.fst).Nodup) : ((nerase k l).map Prod.fst).Nodup :=
  (keys_nerase_sublist k l).nodup hnd

/-! ### Structural facts about the URL model and normalization -/

theorem pathOf_head (ah : List Char) : ∃ t, pathOf ah = '/' :: t := by
  unfold pathOf
  split
  · next h5 =>
    cases ah with
    | nil => simp at h5
    | cons c xs =>
      have hc : c = '/' := by simpa using h5
      subst hc
      exact ⟨xs.takeWhile (fun c => ¬ isPathEnd c), rfl⟩
  · exact ⟨[], rfl⟩

theorem parseURLChars_head_not_alpha (c : Char) (cs : List Char)
    (hc : c.isAlpha = false) : parseURLChars (c :: cs) = none := by
  have hs : splitScheme (c :: cs) = if c = ':' ∧ cs.take 2 = ['/', '/']
      then some ([], cs.drop 2)
      else (splitScheme cs).map (fun p => (c :: p.1, p.2)) := rfl
  unfold parseURLChars
  by_cases h1 : c = ':' ∧ cs.take 2 = ['/', '/']
  · rw [hs, if_pos h1]
    rfl
  · rw [hs, if_neg h1]
    cases h2 : splitScheme cs with
    | none => rfl
    | some p =>
      obtain ⟨a, b⟩ := p
      have hno : ¬((c :: a) ≠ [] ∧ (c :: a).all Char.isAlpha) := by
        rintro ⟨-, hall⟩
        simp only [List.all_cons, Bool.and_eq_true] at hall
        rw [hc] at hall
        exact Bool.false_ne_true hall.1
      have hred : Option.map (fun p => (c :: p.1, p.2)) (some (a, b)) = some (c :: a, b) := rfl
      rw [hred]
      split
      · rename_i hcontra
        exact absurd hcontra (by simp)
      · rename_i scheme rest heq
        have h3 : c :: a = scheme ∧ b = rest := by
          injection heq with h4
          exact ⟨congrArg Prod.fst h4, congrArg Prod.snd h4⟩
        obtain ⟨rfl, rfl⟩ := h3
        rw [if_neg hno]

theorem parseURLChars_pathname (s : List Char) (u : URLRec)
    (h : parseURLChars s = some u) : ∃ t, u.pathname = '/' :: t := by
  unfold parseURLChars at h
  split at h
  · exact absurd h (by simp)
  · split at h
    · split at h
      · exact absurd h (by simp)
      · obtain rfl := Option.some_inj.mp h
        exact pathOf_head _
    · exact absurd h (by simp)

theorem splitSlash_ne_nil (cs : List Char) : splitSlash cs ≠ [] := by
  cases cs with
  | nil => simp [splitSlash]
  | cons c rest =>
    unfold splitSlash
    by_cases h : c = '/'
    · simp [h]
    · simp only [if_neg h]
      cases splitSlash rest <;> simp

theorem normalizeSegment_nil : normalizeSegment [] = [] := by decide

theorem normalizePathChars_head (cs : List Char) :
    ∃ t, normalizePathChars ('/' :: cs) = '/' :: t := by
  unfold normalizePathChars
  have h1 : splitSlash ('/' :: cs) = [] :: splitSlash cs := by
    simp [splitSlash]
  rw [h1]
  simp only [List.map_cons, normalizeSegment_nil]
  cases h2 : (splitSlash cs).map normalizeSegment with
  | nil => exact absurd (List.map_eq_nil_iff.mp h2) (splitSlash_ne_nil cs)
  | cons s ss => exact ⟨s ++ joinSlashAux ss, rfl⟩

/-- Claim C1 (counterexample): the spec's stated outputs are wrong for two of
the three examples.  On `/sync/1700000000000` the hex-hash rule (any 8-64
all-hex segment — digits are hex digits) fires before the numeric and
timestamp rules, yielding `/sync/{hash}`, not `/sync/{ts}`; and the numeric
rule requires at least two digits, so the final `3` of
`/users/48291/orders/3` is left alone, yielding `/users/{id}/orders/3`, not
`/users/{id}/orders/{id}`. -/
theorem normalizePath_examples_cex :
    normalizePath "https://api.example.com/sync/1700000000000" = "/sync/\x7bhash\x7d"
    ∧ normalizePath "https://api.example.com/users/48291/orders/3" =
      "/users/\x7bid\x7d/orders/3"
    ∧ ("/sync/\x7bhash\x7d" : String) ≠ "/sync/\x7bts\x7d"
    ∧ ("/users/\x7bid\x7d/orders/3" : String) ≠ "/users/\x7bid\x7d/orders/\x7bid\x7d" := by
  refine ⟨by decide, by decide, by decide, by decide⟩

/-- Claim C1 (amended): for every URL that parses with one of the spec's three
example paths, `normalizePath` yields `/items/{uuid}/view` for the UUID
example (as the spec states), but `/users/{id}/orders/3` for the second
example (the numeric rule needs 2+ digits) and `/sync/{hash}` for the third
(the 8-64-char hex rule consumes all-digit segments before the numeric and
timestamp rules ever run; the `{ts}` rule is unreachable). -/
theorem normalizePath_examples_corrected :
    (∀ s u, parseURL s = some u →
      u.pathname = "/items/01234567-89ab-cdef-0123-456789abcdef/view".data →
      normalizePath s = "/items/\x7buuid\x7d/view")
    ∧ (∀ s u, parseURL s = some u → u.pathname = "/users/48291/orders/3".data →
      normalizePath s = "/users/\x7bid\x7d/orders/3")
    ∧ (∀ s u, parseURL s = some u → u.pathname = "/sync/1700000000000".data →
      normalizePath s = "/sync/\x7bhash\x7d") := by
  refine ⟨fun s u h hp => ?_, fun s u h hp => ?_, fun s u h hp => ?_⟩ <;>
    (unfold normalizePath
     rw [h]
     show String.mk (normalizePathChars u.pathname) = _
     rw [hp]
     decide)

/-- Witness for C1 (amended), at the three concrete URLs. -/
theorem normalizePath_examples_corrected_witness :
    (parseURL "https://api.example.com/items/01234567-89ab-cdef-0123-456789abcdef/view" =
      some { scheme := "https".data, hostname := "api.example.com".data,
             pathname := "/items/01234567-89ab-cdef-0123-456789abcdef/view".data,
             search := [] }
      ∧ normalizePath "https://api.example.com/items/01234567-89ab-cdef-0123-456789abcdef/view" =
        "/items/\x7buuid\x7d/view")
    ∧ (parseURL "https://api.example.com/users/48291/orders/3" =
      some { scheme := "https".data, hostname := "api.example.com".data,
             pathname := "/users/48291/orders/3".data, search := [] }
      ∧ normalizePath "https://api.example.com/users/48291/orders/3" =
        "/users/\x7bid\x7d/orders/3")
    ∧ (parseURL "https://api.example.com/sync/1700000000000" =
      some { scheme := "https".data, hostname := "api.example.com".data,
             pathname := "/sync/1700000000000".data, search := [] }
      ∧ normalizePath "https://api.example.com/sync/1700000000000" = "/sync/\x7bhash\x7d") :=
  ⟨⟨by decide, normalizePath_examples_corrected.1
      "https://api.example.com/items/01234567-89ab-cdef-0123-456789abcdef/view"
      { scheme := "https".data, hostname := "api.example.com".data,
        pathname := "/items/01234567-89ab-cdef-0123-456789abcdef/view".data, search := [] }
      (by decide) (by decide)⟩,
   ⟨by decide, normalizePath_examples_corrected.2.1
      "https://api.example.com/users/48291/orders/3"
      { scheme := "https".data, hostname := "api.example.com".data,
        pathname := "/users/48291/orders/3".data, search := [] }
      (by decide) (by decide)⟩,
   ⟨by decide, normalizePath_examples_corrected.2.2
      "https://api.example.com/sync/1700000000000"
      { scheme := "https".data, hostname := "api.example.com".data,
        pathname := "/sync/1700000000000".data, search := [] }
      (by decide) (by decide)⟩⟩

/-- Claim C6: path normalization is idempotent.  `normalizePath` applied to
any of its own outputs returns that output unchanged: a successfully parsed
URL normalizes to a bare pathname starting with `/`, which does not parse as
a URL, so the second application takes the pass-through branch; an
unparseable input is returned unchanged and stays unparseable. -/
theorem normalizePath_idempotent (s : String) :
    normalizePath (normalizePath s) = normalizePath s := by
  have hnone : ∀ r : String, parseURL r = none → normalizePath r = r := by
    intro r hr
    unfold normalizePath
    rw [hr]
  cases h : parseURL s with
  | none => rw [hnone s h]; exact hnone s h
  | some u =>
    have h1 : normalizePath s = String.mk (normalizePathChars u.pathname) := by
      unfold normalizePath
      rw [h]
    obtain ⟨t, hp⟩ := parseURLChars_pathname s.data u h
    obtain ⟨t2, hn⟩ := normalizePathChars_head t
    rw [h1, hp, hn]
    exact hnone _ (parseURLChars_head_not_alpha '/' t2 (by decide))

/-- Claim C4 (counterexample): a stored request body longer than the 10 KiB
cap is not truncated: the `requestWillBeSent` handler stores
`redactBody(req.postData || null)` with no `truncateBody` call, so a
10241-character request body is stored at full length with no marker. -/
theorem requestBody_not_truncated_cex :
    (mkPending false "POST" "https://api.example.com/submit" "XHR" []
      (some overCapBody)).requestBody = some overCapBody
    ∧ MAX_BODY_SIZE < overCapBody.length := by
  refine ⟨rfl, ?_⟩
  show MAX_BODY_SIZE < (List.replicate 10241 'a').length
  rw [List.length_replicate]
  norm_num [MAX_BODY_SIZE]

/-- Claim C4 (amended): only response bodies are truncated.  Any response
body longer than 10 KiB is cut at the cap and given the trailing marker
stating the truncation point and the original length (independent of
redaction mode, which never touches response bodies); request bodies are
stored as `redactBody`'s output with no truncation — in particular with
redaction off an over-cap request body is stored at its full length. -/
theorem truncation_response_only (b : String) (h : MAX_BODY_SIZE < b.length) :
    truncateBody (some b) =
      some (String.mk (b.data.take MAX_BODY_SIZE) ++ truncMarker b.length)
    ∧ (∀ redact method url rtype hdrs,
        (mkPending redact method url rtype hdrs (some b)).requestBody =
          redactBody redact (some b))
    ∧ (∀ method url rtype hdrs,
        (mkPending false method url rtype hdrs (some b)).requestBody = some b) := by
  refine ⟨?_, fun _ _ _ _ _ => rfl, fun _ _ _ _ => ?_⟩
  · have hne : ¬(b = "") := by
      intro he
      subst he
      simp only [String.length] at h
      exact absurd h (by decide)
    simp [truncateBody, hne, h]
  · show redactBody false (some b) = some b
    simp [redactBody]

/-- Witness for C4 (amended) at the concrete 10241-character body. -/
theorem truncation_response_only_witness :
    MAX_BODY_SIZE < overCapBody.length
    ∧ (truncateBody (some overCapBody) =
        some (String.mk (overCapBody.data.take MAX_BODY_SIZE) ++
          truncMarker overCapBody.length)
      ∧ (∀ redact method url rtype hdrs,
          (mkPending redact method url rtype hdrs (some overCapBody)).requestBody =
            redactBody redact (some overCapBody))
      ∧ (∀ method url rtype hdrs,
          (mkPending false method url rtype hdrs (some overCapBody)).requestBody =
            some overCapBody)) :=
  ⟨by
    show MAX_BODY_SIZE < (List.replicate 10241 'a').length
    rw [List.length_replicate]
    norm_num [MAX_BODY_SIZE],
   truncation_response_only overCapBody (by
    show MAX_BODY_SIZE < (List.replicate 10241 'a').length
    rw [List.length_replicate]
    norm_num [MAX_BODY_SIZE])⟩

/-! ### Correlator machine facts -/

theorem count_snoc_self (l : List Nat) (j : Nat) : (l ++ [j]).count j = l.count j + 1 := by
  simp [List.count_append]

theorem count_snoc_ne (l : List Nat) (j id : Nat) (h : j ≠ id) :
    (l ++ [j]).count id = l.count id := by
  simp [List.count_append, List.count_singleton', h]

theorem keys_appendAt (d : String) (e : Entry) (m : List (String × List Entry)) :
    (appendAt d e m).map Prod.fst =
      if d ∈ m.map Prod.fst then m.map Prod.fst else m.map Prod.fst ++ [d] := by
  induction m with
  | nil => simp [appendAt]
  | cons hd tl ih =>
    obtain ⟨d', l⟩ := hd
    by_cases h : d' = d
    · subst h; simp [appendAt]
    · have hne : ¬(d = d') := fun he => h he.symm
      simp only [appendAt, if_neg h, List.map_cons, List.mem_cons, ih]
      split
      · next hmem => simp [hmem, hne]
      · next hmem => simp [hmem, hne]

theorem keys_appendAt_nodup (d : String) (e : Entry) (m : List (String × List Entry))
    (h : (m.map Prod.fst).Nodup) : ((appendAt d e m).map Prod.fst).Nodup := by
  rw [keys_appendAt]
  split
  · exact h
  · next hmem => simp [List.nodup_append, h, hmem]

theorem mem_keys_appendAt_self (d : String) (e : Entry) (m : List (String × List Entry)) :
    d ∈ (appendAt d e m).map Prod.fst := by
  rw [keys_appendAt]
  split
  · next hmem => exact hmem
  · simp

theorem mem_keys_appendAt_mono (d d' : String) (e : Entry) (m : List (String × List Entry))
    (h : d' ∈ m.map Prod.fst) : d' ∈ (appendAt d e m).map Prod.fst := by
  rw [keys_appendAt]
  split
  · exact h
  · simp [h]

theorem alookup_appendAt_self (d : String) (e : Entry) (m : List (String × List Entry)) :
    alookup d (appendAt d e m) = some ((alookup d m).getD [] ++ [e]) := by
  induction m with
  | nil => simp [appendAt, alookup]
  | cons hd tl ih =>
    obtain ⟨d', l⟩ := hd
    by_cases h : d' = d
    · subst h; simp [appendAt, alookup]
    · simp [appendAt, alookup, h, ih]

theorem step_other_fields (r : Bool) (s : CapSt) (e : Ev) (he : e ≠ Ev.shutdownSig) :
    (step r s e).shuttingDown = s.shuttingDown ∧ (step r s e).written = s.written ∧
      (step r s e).flushCount = s.flushCount := by
  unfold step
  split
  · exact ⟨rfl, rfl, rfl⟩
  · cases e with
    | requestWillBeSent id m u t hd pd => dsimp only; split <;> exact ⟨rfl, rfl, rfl⟩
    | responseReceived id st hd =>
      dsimp only
      cases nlookup id s.pending <;> exact ⟨rfl, rfl, rfl⟩
    | loadingFinished id =>
      dsimp only
      cases nlookup id s.pending <;> exact ⟨rfl, rfl, rfl⟩
    | bodyFetch id res =>
      dsimp only
      cases nlookup id s.outstanding <;> exact ⟨rfl, rfl, rfl⟩
    | loadingFailed id err =>
      dsimp only
      cases nlookup id s.pending <;> exact ⟨rfl, rfl, rfl⟩
    | shutdownSig => exact absurd rfl he

theorem step_shut (r : Bool) (s : CapSt) (e : Ev) (h : s.shuttingDown = true) :
    step r s e = s := by
  unfold step
  rw [if_pos h]

theorem foldStore_spec (l : List (Nat × Entry)) :
    ∀ s : CapSt,
      (l.foldl (fun acc p => storeEntry acc p.1 p.2) s).storedLog =
        s.storedLog ++ l.map Prod.fst
      ∧ (l.foldl (fun acc p => storeEntry acc p.1 p.2) s).pending = s.pending
      ∧ (l.foldl (fun acc p => storeEntry acc p.1 p.2) s).outstanding = s.outstanding
      ∧ (l.foldl (fun acc p => storeEntry acc p.1 p.2) s).shuttingDown = s.shuttingDown
      ∧ (l.foldl (fun acc p => storeEntry acc p.1 p.2) s).written = s.written
      ∧ (l.foldl (fun acc p => storeEntry acc p.1 p.2) s).flushCount = s.flushCount
      ∧ ((s.captured.map Prod.fst).Nodup →
          (((l.foldl (fun acc p => storeEntry acc p.1 p.2) s).captured.map Prod.fst).Nodup))
      ∧ (∀ d, d ∈ s.captured.map Prod.fst →
          d ∈ (l.foldl (fun acc p => storeEntry acc p.1 p.2) s).captured.map Prod.fst) := by
  induction l with
  | nil => intro s; simp
  | cons hd tl ih =>
    intro s
    obtain ⟨i, e⟩ := hd
    simp only [List.foldl_cons]
    obtain ⟨h1, h2, h3, h4, h5, h6, h7, h8⟩ := ih (storeEntry s i e)
    refine ⟨?_, h2, h3, h4, h5, h6, ?_, ?_⟩
    · rw [h1]
      show (s.storedLog ++ [i]) ++ tl.map Prod.fst = s.storedLog ++ (i :: tl.map Prod.fst)
      simp
    · intro hnd
      exact h7 (keys_appendAt_nodup _ _ _ hnd)
    · intro d hd2
      exact h8 d (mem_keys_appendAt_mono _ _ _ _ hd2)

theorem StInv_step (r : Bool) (s : CapSt) (e : Ev) (h : StInv s) : StInv (step r s e) := by
  obtain ⟨hp, ho, hc⟩ := h
  unfold step
  split
  · exact ⟨hp, ho, hc⟩
  · cases e with
    | requestWillBeSent id m u t hd pd =>
      dsimp only
      split
      · exact ⟨keys_nset_nodup _ _ _ hp, ho, hc⟩
      · exact ⟨hp, ho, hc⟩
    | responseReceived id st hd =>
      dsimp only
      cases nlookup id s.pending with
      | none => exact ⟨hp, ho, hc⟩
      | some en => exact ⟨keys_nset_nodup _ _ _ hp, ho, hc⟩
    | loadingFinished id =>
      dsimp only
      cases nlookup id s.pending with
      | none => exact ⟨hp, ho, hc⟩
      | some en => exact ⟨keys_nerase_nodup _ _ hp, keys_nset_nodup _ _ _ ho, hc⟩
    | bodyFetch id res =>
      dsimp only
      cases nlookup id s.outstanding with
      | none => exact ⟨hp, ho, hc⟩
      | some en =>
        exact ⟨hp, keys_nerase_nodup _ _ ho, keys_appendAt_nodup _ _ _ hc⟩
    | loadingFailed id err =>
      dsimp only
      cases nlookup id s.pending with
      | none => exact ⟨hp, ho, hc⟩
      | some en => exact ⟨keys_nerase_nodup _ _ hp, ho, keys_appendAt_nodup _ _ _ hc⟩
    | shutdownSig =>
      dsimp only [writeFiles, flushPending]
      obtain ⟨-, h2, h3, -, -, -, h7, -⟩ := foldStore_spec s.pending
        { s with shuttingDown := true, flushCount := s.flushCount + 1 }
      exact ⟨by simp, by rw [h3]; exact ho, h7 hc⟩

theorem step_shutdown_spec (r : Bool) (s : CapSt) (hs : s.shuttingDown = false) :
    (step r s Ev.shutdownSig).storedLog = s.storedLog ++ s.pending.map Prod.fst
    ∧ (step r s Ev.shutdownSig).pending = []
    ∧ (step r s Ev.shutdownSig).written =
        (step r s Ev.shutdownSig).captured.map Prod.fst
    ∧ (step r s Ev.shutdownSig).shuttingDown = true
    ∧ (step r s Ev.shutdownSig).flushCount = s.flushCount + 1
    ∧ (∀ d, d ∈ s.captured.map Prod.fst →
        d ∈ (step r s Ev.shutdownSig).captured.map Prod.fst) := by
  have hstep : step r s Ev.shutdownSig = writeFiles (flushPending
      { s with shuttingDown := true, flushCount := s.flushCount + 1 }) := by
    unfold step
    rw [if_neg (by simp [hs])]
  obtain ⟨h1, h2, h3, h4, h5, h6, h7, h8⟩ := foldStore_spec s.pending
    { s with shuttingDown := true, flushCount := s.flushCount + 1 }
  rw [hstep]
  refine ⟨by simpa using h1, by simp [writeFiles, flushPending], rfl, ?_, ?_, ?_⟩
  · show (flushPending _).shuttingDown = true
    simp [flushPending, h4]
  · show (flushPending _).flushCount = s.flushCount + 1
    simp [flushPending, h6]
  · intro d hd
    show d ∈ (flushPending _).captured.map Prod.fst
    simpa [flushPending] using h8 d hd

theorem evId_none_iff (e : Ev) : evId e = none ↔ e = Ev.shutdownSig := by
  cases e <;> simp [evId]

theorem proj_frame (r : Bool) (s : CapSt) (e : Ev) (id : Nat)
    (hid : evId e ≠ some id) (hsh : e ≠ Ev.shutdownSig) (hs : s.shuttingDown = false) :
    projOf id (step r s e) = projOf id s := by
  unfold step
  rw [if_neg (by simp [hs])]
  cases e with
  | requestWillBeSent i m u t hd pd =>
    have hne : i ≠ id := by simpa [evId] using hid
    dsimp only
    split
    · unfold projOf
      rw [nlookup_nset_ne id i _ _ hne]
    · rfl
  | responseReceived i st hd =>
    have hne : i ≠ id := by simpa [evId] using hid
    dsimp only
    cases nlookup i s.pending with
    | none => rfl
    | some en =>
      unfold projOf
      rw [nlookup_nset_ne id i _ _ hne]
  | loadingFinished i =>
    have hne : i ≠ id := by simpa [evId] using hid
    dsimp only
    cases nlookup i s.pending with
    | none => rfl
    | some en =>
      unfold projOf
      rw [nlookup_nerase_ne id i _ hne, nlookup_nset_ne id i _ _ hne]
  | bodyFetch i res =>
    have hne : i ≠ id := by simpa [evId] using hid
    dsimp only
    cases nlookup i s.outstanding with
    | none => rfl
    | some en =>
      unfold projOf storeEntry
      simp only
      rw [nlookup_nerase_ne id i _ hne, count_snoc_ne _ i id hne]
  | loadingFailed i err =>
    have hne : i ≠ id := by simpa [evId] using hid
    dsimp only
    cases nlookup i s.pending with
    | none => rfl
    | some en =>
      unfold projOf storeEntry
      simp only
      rw [nlookup_nerase_ne id i _ hne, count_snoc_ne _ i id hne]
  | shutdownSig => exact absurd rfl hsh

theorem proj_own (r : Bool) (s : CapSt) (e : Ev) (id : Nat)
    (hid : evId e = some id) (hs : s.shuttingDown = false) (hinv : StInv s) :
    projOf id (step r s e) = projStep (projOf id s) e := by
  obtain ⟨hp, ho, -⟩ := hinv
  unfold step
  rw [if_neg (by simp [hs])]
  cases e with
  | requestWillBeSent i m u t hd pd =>
    obtain rfl : i = id := by simpa [evId] using hid
    dsimp only
    split
    · next htr =>
      unfold projOf projStep
      rw [nlookup_nset_self]
      simp [htr]
    · next htr =>
      unfold projOf projStep
      simp [htr]
  | responseReceived i st hd =>
    obtain rfl : i = id := by simpa [evId] using hid
    dsimp only
    cases hnl : nlookup i s.pending with
    | none => rfl
    | some en =>
      unfold projOf projStep
      rw [nlookup_nset_self, hnl]
      rfl
  | loadingFinished i =>
    obtain rfl : i = id := by simpa [evId] using hid
    dsimp only
    cases hnl : nlookup i s.pending with
    | none =>
      unfold projOf projStep
      rw [hnl]
      simp
    | some en =>
      unfold projOf projStep
      rw [nlookup_nerase_self i _ hp, nlookup_nset_self, hnl]
      simp
  | bodyFetch i res =>
    obtain rfl : i = id := by simpa [evId] using hid
    dsimp only
    cases hnl : nlookup i s.outstanding with
    | none =>
      unfold projOf projStep
      rw [hnl]
      simp
    | some en =>
      unfold projOf projStep storeEntry
      simp only
      rw [nlookup_nerase_self i _ ho, count_snoc_self, hnl]
      simp
  | loadingFailed i err =>
    obtain rfl : i = id := by simpa [evId] using hid
    dsimp only
    cases hnl : nlookup i s.pending with
    | none =>
      unfold projOf projStep
      rw [hnl]
      simp
    | some en =>
      unfold projOf projStep storeEntry
      simp only
      rw [nlookup_nerase_self i _ hp, count_snoc_self, hnl]
      simp
  | shutdownSig => cases hid

theorem StInv_init : StInv initSt := ⟨List.nodup_nil, List.nodup_nil, List.nodup_nil⟩

theorem StInv_run (r : Bool) (tr : List Ev) :
    ∀ s : CapSt, StInv s → StInv (runEvs r s tr) := by
  induction tr with
  | nil => intro s h; exact h
  | cons e tl ih =>
    intro s h
    exact ih (step r s e) (StInv_step r s e h)

theorem run_flag_false (r : Bool) (tr : List Ev) :
    ∀ s : CapSt, noShut tr = true → s.shuttingDown = false →
      (runEvs r s tr).shuttingDown = false := by
  induction tr with
  | nil => intro s _ h; exact h
  | cons e tl ih =>
    intro s hns h
    simp only [noShut, List.all_cons, Bool.and_eq_true] at hns
    have he : e ≠ Ev.shutdownSig := by simpa using hns.1
    have h2 : (step r s e).shuttingDown = false := by
      rw [(step_other_fields r s e he).1]
      exact h
    exact ih (step r s e) (by simpa [noShut] using hns.2) h2

theorem run_flag_true (r : Bool) (tr : List Ev) :
    ∀ s : CapSt, s.shuttingDown = true → (runEvs r s tr).shuttingDown = true := by
  induction tr with
  | nil => intro s h; exact h
  | cons e tl ih =>
    intro s h
    show (runEvs r (step r s e) tl).shuttingDown = true
    rw [step_shut r s e h]
    exact ih s h

theorem run_shut_mem (r : Bool) (tr : List Ev) :
    ∀ s : CapSt, Ev.shutdownSig ∈ tr → (runEvs r s tr).shuttingDown = true := by
  induction tr with
  | nil => intro s h; cases h
  | cons e tl ih =>
    intro s h
    rcases List.mem_cons.mp h with h1 | h2
    · subst h1
      show (runEvs r (step r s Ev.shutdownSig) tl).shuttingDown = true
      by_cases hs : s.shuttingDown = true
      · rw [step_shut r s _ hs]
        exact run_flag_true r tl s hs
      · have hs2 : s.shuttingDown = false := by
          cases hb : s.shuttingDown
          · rfl
          · exact absurd hb hs
        exact run_flag_true r tl _ (step_shutdown_spec r s hs2).2.2.2.1
    · exact ih (step r s e) h2

theorem run_proj (r : Bool) (id : Nat) (tr : List Ev) :
    ∀ s : CapSt, noShut tr = true → s.shuttingDown = false → StInv s →
      projOf id (runEvs r s tr) = (idEvs id tr).foldl projStep (projOf id s) := by
  induction tr with
  | nil => intro s _ _ _; rfl
  | cons e tl ih =>
    intro s hns hs hinv
    simp only [noShut, List.all_cons, Bool.and_eq_true] at hns
    have he : e ≠ Ev.shutdownSig := by simpa using hns.1
    have htl : noShut tl = true := by simpa [noShut] using hns.2
    have hs2 : (step r s e).shuttingDown = false := by
      rw [(step_other_fields r s e he).1]
      exact hs
    have hinv2 : StInv (step r s e) := StInv_step r s e hinv
    show projOf id (runEvs r (step r s e) tl) = _
    rw [ih (step r s e) htl hs2 hinv2]
    cases hm : evId e with
    | none => exact absurd ((evId_none_iff e).mp hm) he
    | some j =>
      by_cases hj : j = id
      · have hm2 : evId e = some id := by rw [hm, hj]
        rw [proj_own r s e id hm2 hs hinv]
        have hfilter : idEvs id (e :: tl) = e :: idEvs id tl := by
          simp [idEvs, List.filter_cons, hm2]
        rw [hfilter, List.foldl_cons]
      · have hne : evId e ≠ some id := by
          rw [hm]
          simpa using hj
        rw [proj_frame r s e id hne he hs]
        have hfilter : idEvs id (e :: tl) = idEvs id tl := by
          simp [idEvs, List.filter_cons, hm, hj]
        rw [hfilter]

theorem mem_of_nlookup_isSome {β : Type} (k : Nat) (l : List (Nat × β))
    (h : (nlookup k l).isSome = true) : k ∈ l.map Prod.fst := by
  induction l with
  | nil => simp [nlookup] at h
  | cons hd tl ih =>
    obtain ⟨k', v'⟩ := hd
    by_cases he : k' = k
    · simp [he]
    · simp only [nlookup, if_neg he] at h
      simp [ih h]

theorem count_eq_one_of_nodup_mem {α : Type} [DecidableEq α] {l : List α} {a : α}
    (hnd : l.Nodup) (h : a ∈ l) : l.count a = 1 := by
  have hle := List.nodup_iff_count_le_one.mp hnd a
  have hpos : 0 < l.count a := List.count_pos_iff.mpr h
  omega

theorem projStep_sent (p : Bool × Bool × Nat) (e : Ev) (h : isSentEv e = true) :
    projStep p e = (true, p.2.1, p.2.2) ∨ projStep p e = p := by
  obtain ⟨pe, o, n⟩ := p
  cases e with
  | requestWillBeSent i m u t hd pd =>
    simp only [projStep]
    by_cases htr : trackedRequest t u = true
    · left
      rw [if_pos htr]
    · right
      rw [if_neg htr]
  | responseReceived i st hd => exact absurd h (by simp [isSentEv])
  | loadingFinished i => exact absurd h (by simp [isSentEv])
  | bodyFetch i res => exact absurd h (by simp [isSentEv])
  | loadingFailed i err => exact absurd h (by simp [isSentEv])
  | shutdownSig => exact absurd h (by simp [isSentEv])

theorem projStep_sent_tracked (p : Bool × Bool × Nat) (e : Ev) (rest : List Ev)
    (h : trackedSentHead (e :: rest) = true) : projStep p e = (true, p.2.1, p.2.2) := by
  obtain ⟨pe, o, n⟩ := p
  cases e with
  | requestWillBeSent i m u t hd pd =>
    have htr : trackedRequest t u = true := by simpa [trackedSentHead] using h
    simp only [projStep]
    rw [if_pos htr]
  | responseReceived i st hd => exact absurd h (by simp [trackedSentHead])
  | loadingFinished i => exact absurd h (by simp [trackedSentHead])
  | bodyFetch i res => exact absurd h (by simp [trackedSentHead])
  | loadingFailed i err => exact absurd h (by simp [trackedSentHead])
  | shutdownSig => exact absurd h (by simp [trackedSentHead])

theorem projStep_headers (p : Bool × Bool × Nat) (e : Ev) (h : isHeadersEv e = true) :
    projStep p e = p := by
  obtain ⟨pe, o, n⟩ := p
  cases e with
  | responseReceived i st hd => rfl
  | requestWillBeSent i m u t hd pd => exact absurd h (by simp [isHeadersEv])
  | loadingFinished i => exact absurd h (by simp [isHeadersEv])
  | bodyFetch i res => exact absurd h (by simp [isHeadersEv])
  | loadingFailed i err => exact absurd h (by simp [isHeadersEv])
  | shutdownSig => exact absurd h (by simp [isHeadersEv])

theorem projStep_finished (p : Bool × Bool × Nat) (e : Ev) (h : isFinishedEv e = true) :
    projStep p e = if p.1 = true then (false, true, p.2.2) else p := by
  obtain ⟨pe, o, n⟩ := p
  cases e with
  | loadingFinished i => rfl
  | requestWillBeSent i m u t hd pd => exact absurd h (by simp [isFinishedEv])
  | responseReceived i st hd => exact absurd h (by simp [isFinishedEv])
  | bodyFetch i res => exact absurd h (by simp [isFinishedEv])
  | loadingFailed i err => exact absurd h (by simp [isFinishedEv])
  | shutdownSig => exact absurd h (by simp [isFinishedEv])

theorem projStep_fetch (p : Bool × Bool × Nat) (e : Ev) (h : isFetchEv e = true) :
    projStep p e = if p.2.1 = true then (p.1, false, p.2.2 + 1) else p := by
  obtain ⟨pe, o, n⟩ := p
  cases e with
  | bodyFetch i res => rfl
  | requestWillBeSent i m u t hd pd => exact absurd h (by simp [isFetchEv])
  | responseReceived i st hd => exact absurd h (by simp [isFetchEv])
  | loadingFinished i => exact absurd h (by simp [isFetchEv])
  | loadingFailed i err => exact absurd h (by simp [isFetchEv])
  | shutdownSig => exact absurd h (by simp [isFetchEv])

theorem projStep_failed (p : Bool × Bool × Nat) (e : Ev) (h : isFailedEv e = true) :
    projStep p e = if p.1 = true then (false, p.2.1, p.2.2 + 1) else p := by
  obtain ⟨pe, o, n⟩ := p
  cases e with
  | loadingFailed i err => rfl
  | requestWillBeSent i m u t hd pd => exact absurd h (by simp [isFailedEv])
  | responseReceived i st hd => exact absurd h (by simp [isFailedEv])
  | loadingFinished i => exact absurd h (by simp [isFailedEv])
  | bodyFetch i res => exact absurd h (by simp [isFailedEv])
  | shutdownSig => exact absurd h (by simp [isFailedEv])

theorem pattern_count_le_one (l : List Ev) (h : okPattern l = true) :
    finalCount l ≤ 1 := by
  unfold finalCount
  rcases l with _ | ⟨a, _ | ⟨b, _ | ⟨c, _ | ⟨d, rest⟩⟩⟩⟩
  · simp [okPattern] at h
  · simp only [okPattern] at h
    simp only [List.foldl_cons, List.foldl_nil]
    rcases projStep_sent (false, false, 0) a h with h1 | h1 <;> simp only [h1] <;> simp
  · simp only [okPattern, Bool.and_eq_true, Bool.or_eq_true] at h
    obtain ⟨ha, hb⟩ := h
    simp only [List.foldl_cons, List.foldl_nil]
    rcases projStep_sent (false, false, 0) a ha with h1 | h1 <;> simp only [h1] <;>
      (rcases hb with (hb | hb) | hb
       · simp only [projStep_headers _ _ hb]
         simp
       · simp only [projStep_finished _ _ hb]
         simp
       · simp only [projStep_failed _ _ hb]
         simp)
  · simp only [okPattern, Bool.and_eq_true, Bool.or_eq_true] at h
    obtain ⟨ha, hbc⟩ := h
    simp only [List.foldl_cons, List.foldl_nil]
    rcases projStep_sent (false, false, 0) a ha with h1 | h1 <;> simp only [h1] <;>
      (rcases hbc with ⟨hb, hc | hc⟩ | ⟨hb, hc⟩
       · simp only [projStep_headers _ _ hb, projStep_finished _ _ hc]
         simp
       · simp only [projStep_headers _ _ hb, projStep_failed _ _ hc]
         simp
       · simp [projStep_finished _ _ hb, projStep_fetch _ _ hc])
  · rcases rest with _ | ⟨x, xs⟩
    · simp only [okPattern, Bool.and_eq_true] at h
      obtain ⟨⟨⟨ha, hb⟩, hc⟩, hd2⟩ := h
      simp only [List.foldl_cons, List.foldl_nil]
      rcases projStep_sent (false, false, 0) a ha with h1 | h1 <;> simp only [h1] <;>
        simp [projStep_headers _ _ hb, projStep_finished _ _ hc, projStep_fetch _ _ hd2]
    · simp [okPattern] at h

theorem pattern_count_eq_one (l : List Ev) (h : completePattern l = true)
    (ht : trackedSentHead l = true) : finalCount l = 1 := by
  unfold finalCount
  rcases l with _ | ⟨a, _ | ⟨b, _ | ⟨c, _ | ⟨d, rest⟩⟩⟩⟩
  · simp [completePattern] at h
  · simp only [List.foldl_cons, List.foldl_nil]
    simp [projStep_sent_tracked _ a _ ht]
  · simp only [completePattern, Bool.and_eq_true, Bool.or_eq_true] at h
    obtain ⟨ha, hb⟩ := h
    simp only [List.foldl_cons, List.foldl_nil]
    simp only [projStep_sent_tracked _ a _ ht]
    rcases hb with hb | hb
    · simp [projStep_headers _ _ hb]
    · simp [projStep_failed _ _ hb]
  · simp only [completePattern, Bool.and_eq_true, Bool.or_eq_true] at h
    obtain ⟨ha, hbc⟩ := h
    simp only [List.foldl_cons, List.foldl_nil]
    simp only [projStep_sent_tracked _ a _ ht]
    rcases hbc with ⟨hb, hc⟩ | ⟨hb, hc⟩
    · simp [projStep_headers _ _ hb, projStep_failed _ _ hc]
    · simp [projStep_finished _ _ hb, projStep_fetch _ _ hc]
  · rcases rest with _ | ⟨x, xs⟩
    · simp only [completePattern, Bool.and_eq_true] at h
      obtain ⟨⟨⟨ha, hb⟩, hc⟩, hd2⟩ := h
      simp only [List.foldl_cons, List.foldl_nil]
      simp only [projStep_sent_tracked _ a _ ht]
      simp [projStep_headers _ _ hb, projStep_finished _ _ hc, projStep_fetch _ _ hd2]
    · simp [completePattern] at h

/-- Claim C2 (amended): per tracked identifier the correlator stores at most
one CaptureEntry over any per-identifier-ordered notification sequence
followed by shutdown; and it stores exactly one provided every
`loadingFinished` has its asynchronous body-fetch resolution before the
shutdown trigger (identifiers still pending at shutdown are flushed, and
failed ones were stored directly).  Without that proviso "never zero"
fails: see the counterexample. -/
theorem correlator_capture_count (r : Bool) (notifs : List Ev) (id : Nat)
    (hns : noShut notifs = true) :
    (okPattern (idEvs id notifs) = true →
      (runEvs r initSt (notifs ++ [Ev.shutdownSig])).storedLog.count id ≤ 1)
    ∧ (completePattern (idEvs id notifs) = true →
        trackedSentHead (idEvs id notifs) = true →
        (runEvs r initSt (notifs ++ [Ev.shutdownSig])).storedLog.count id = 1) := by
  have hsplit : runEvs r initSt (notifs ++ [Ev.shutdownSig]) =
      step r (runEvs r initSt notifs) Ev.shutdownSig := by
    unfold runEvs
    rw [List.foldl_append]
    rfl
  have hflag : (runEvs r initSt notifs).shuttingDown = false :=
    run_flag_false r notifs initSt hns rfl
  have hinv : StInv (runEvs r initSt notifs) := StInv_run r notifs initSt StInv_init
  have hproj : projOf id (runEvs r initSt notifs) =
      (idEvs id notifs).foldl projStep (false, false, 0) :=
    run_proj r id notifs initSt hns rfl StInv_init
  have h1 : (runEvs r initSt notifs).storedLog.count id =
      ((idEvs id notifs).foldl projStep (false, false, 0)).2.2 := by
    have := congrArg (fun t => t.2.2) hproj
    simpa [projOf] using this
  have hl : (nlookup id (runEvs r initSt notifs).pending).isSome =
      ((idEvs id notifs).foldl projStep (false, false, 0)).1 := by
    have := congrArg (fun t => t.1) hproj
    simpa [projOf] using this
  have hcount : (runEvs r initSt (notifs ++ [Ev.shutdownSig])).storedLog.count id =
      finalCount (idEvs id notifs) := by
    rw [hsplit]
    obtain ⟨hlog, -, -, -, -, -⟩ := step_shutdown_spec r (runEvs r initSt notifs) hflag
    rw [hlog, List.count_append, h1]
    unfold finalCount
    congr 1
    by_cases hmem : id ∈ (runEvs r initSt notifs).pending.map Prod.fst
    · rw [count_eq_one_of_nodup_mem hinv.1 hmem,
        if_pos (by rw [← hl]; exact nlookup_isSome_of_mem id _ hmem)]
    · rw [List.count_eq_zero.mpr hmem, if_neg ?_]
      intro hT
      exact hmem (mem_of_nlookup_isSome id _ (by rw [hl]; exact hT))
  rw [hcount]
  exact ⟨fun hok => pattern_count_le_one _ hok,
         fun hc ht => pattern_count_eq_one _ hc ht⟩

/-- Witness for C2 (amended): a full tracked lifecycle (sent, headers,
finished, body fetched) followed by shutdown stores exactly one entry. -/
theorem correlator_capture_count_witness :
    noShut capTraceW = true
    ∧ completePattern (idEvs 1 capTraceW) = true
    ∧ trackedSentHead (idEvs 1 capTraceW) = true
    ∧ (runEvs false initSt (capTraceW ++ [Ev.shutdownSig])).storedLog.count 1 = 1 :=
  ⟨by decide, by decide, by decide,
   (correlator_capture_count false capTraceW 1 (by decide)).2 (by decide) (by decide)⟩

/-- Claim C2 (counterexample): a tracked identifier whose `loadingFinished`
arrived but whose body fetch is still outstanding when shutdown fires is
stored zero times — it was already removed from the in-flight map (so the
flush skips it) and `process.exit(0)` prevents its fetch callback from ever
running. -/
theorem correlator_dropped_fetch_cex :
    ((runEvs false initSt
        [Ev.requestWillBeSent 1 "GET" "https://api.example.com/data" "XHR" [] none]
      ).pending.map Prod.fst) = [1]
    ∧ (runEvs false initSt capTraceDrop).storedLog.count 1 = 0
    ∧ (runEvs false initSt capTraceDrop).shuttingDown = true := by
  refine ⟨by decide, by decide, by decide⟩

theorem WFlag_step (r : Bool) (s : CapSt) (e : Ev) (h : WFlag s) :
    WFlag (step r s e) := by
  by_cases hs : s.shuttingDown = true
  · rw [step_shut r s e hs]
    exact h
  · have hs2 : s.shuttingDown = false := by
      cases hb : s.shuttingDown
      · rfl
      · exact absurd hb hs
    by_cases he : e = Ev.shutdownSig
    · subst he
      obtain ⟨-, hpend, hwr, hflag, hfc, -⟩ := step_shutdown_spec r s hs2
      unfold WFlag
      rw [if_pos hflag]
      unfold WFlag at h
      rw [if_neg hs] at h
      exact ⟨hwr, by rw [hfc, h.2], hpend⟩
    · obtain ⟨h1, h2, h3⟩ := step_other_fields r s e he
      unfold WFlag at h ⊢
      rw [if_neg hs] at h
      rw [h1, if_neg hs]
      exact ⟨by rw [h2, h.1], by rw [h3, h.2]⟩

theorem WFlag_run (r : Bool) (tr : List Ev) :
    ∀ s : CapSt, WFlag s → WFlag (runEvs r s tr) := by
  induction tr with
  | nil => intro s h; exact h
  | cons e tl ih => intro s h; exact ih (step r s e) (WFlag_step r s e h)

theorem WFlag_init : WFlag initSt := by
  unfold WFlag initSt
  simp

/-- Claim C5: shutdown is idempotent.  Over any event trace (any number of
duration-timer or signal triggers, in any position): no domain's session
file is ever written more than once and the pending flush runs at most
once; and once some trigger has fired, the flush ran exactly once and every
captured domain's file was written exactly once. -/
theorem shutdown_idempotent (r : Bool) (tr : List Ev) (d : String) :
    ((runEvs r initSt tr).written.count d ≤ 1)
    ∧ ((runEvs r initSt tr).flushCount ≤ 1)
    ∧ (Ev.shutdownSig ∈ tr →
        (runEvs r initSt tr).flushCount = 1
        ∧ (d ∈ (runEvs r initSt tr).captured.map Prod.fst →
            (runEvs r initSt tr).written.count d = 1)) := by
  have hinv : StInv (runEvs r initSt tr) := StInv_run r tr initSt StInv_init
  have hW : WFlag (runEvs r initSt tr) := WFlag_run r tr initSt WFlag_init
  by_cases hs : (runEvs r initSt tr).shuttingDown = true
  · unfold WFlag at hW
    rw [if_pos hs] at hW
    obtain ⟨hwr, hfc, -⟩ := hW
    have hnd : ((runEvs r initSt tr).captured.map Prod.fst).Nodup := hinv.2.2
    refine ⟨?_, by rw [hfc], fun _ => ⟨hfc, fun hmem => ?_⟩⟩
    · rw [hwr]
      exact List.nodup_iff_count_le_one.mp hnd d
    · rw [hwr]
      exact count_eq_one_of_nodup_mem (l := (runEvs r initSt tr).captured.map Prod.fst)
        hnd hmem
  · unfold WFlag at hW
    rw [if_neg hs] at hW
    obtain ⟨hwr, hfc⟩ := hW
    exact ⟨by simp [hwr], by simp [hfc],
           fun hmem => absurd (run_shut_mem r tr initSt hmem) hs⟩

/-- Witness for C5: a captured request followed by two shutdown triggers in
quick succession (timer then signal) flushes once and writes the
`example.com` session file exactly once. -/
theorem shutdown_idempotent_witness :
    Ev.shutdownSig ∈ doubleShutTrace
    ∧ (runEvs false initSt doubleShutTrace).flushCount = 1
    ∧ (runEvs false initSt doubleShutTrace).written.count "example.com" = 1 :=
  ⟨by decide,
   ((shutdown_idempotent false doubleShutTrace "example.com").2.2 (by decide)).1,
   ((shutdown_idempotent false doubleShutTrace "example.com").2.2 (by decide)).2 (by decide)⟩

/-- Claim C10: for an unparseable URL, `getDomain` returns the literal
`'unknown'` instead of failing; `storeEntry` therefore appends such entries
to the `'unknown'` bucket, and the shutdown write loop emits one session
file per captured domain — `'unknown'` included. -/
theorem unknown_domain_bucket (url : String) (h : parseURL url = none) :
    getDomain url = "unknown"
    ∧ (∀ s id e, e.url = url →
        alookup "unknown" (storeEntry s id e).captured =
          some ((alookup "unknown" s.captured).getD [] ++ [e])
        ∧ "unknown" ∈ (storeEntry s id e).captured.map Prod.fst)
    ∧ (∀ r s, s.shuttingDown = false →
        (step r s Ev.shutdownSig).written =
          (step r s Ev.shutdownSig).captured.map Prod.fst
        ∧ (∀ d, d ∈ s.captured.map Prod.fst → d ∈ (step r s Ev.shutdownSig).written)) := by
  have hdom : getDomain url = "unknown" := by
    unfold getDomain
    rw [h]
  refine ⟨hdom, fun s id e he => ?_, fun r s hs => ?_⟩
  · have hd2 : getDomain e.url = "unknown" := by rw [he, hdom]
    constructor
    · show alookup "unknown" (appendAt (getDomain e.url) e s.captured) = _
      rw [hd2]
      exact alookup_appendAt_self "unknown" e s.captured
    · show "unknown" ∈ (appendAt (getDomain e.url) e s.captured).map Prod.fst
      rw [hd2]
      exact mem_keys_appendAt_self "unknown" e s.captured
  · obtain ⟨-, -, hwr, -, -, hmono⟩ := step_shutdown_spec r s hs
    refine ⟨hwr, fun d hd => ?_⟩
    rw [hwr]
    exact hmono d hd

/-- Witness for C10 at the unparseable URL `::nope::`. -/
theorem unknown_domain_bucket_witness :
    parseURL "::nope::" = none
    ∧ getDomain "::nope::" = "unknown"
    ∧ alookup "unknown" (storeEntry initSt 7 badUrlEntry).captured =
        some ((alookup "unknown" initSt.captured).getD [] ++ [badUrlEntry])
    ∧ "unknown" ∈ (storeEntry initSt 7 badUrlEntry).captured.map Prod.fst :=
  ⟨by decide,
   (unknown_domain_bucket "::nope::" (by decide)).1,
   ((unknown_domain_bucket "::nope::" (by decide)).2.1 initSt 7 badUrlEntry rfl).1,
   ((unknown_domain_bucket "::nope::" (by decide)).2.1 initSt 7 badUrlEntry rfl).2⟩

/-! ### Sorting and threshold facts for auth detection -/

theorem mem_insDescSnd {α : Type} (x b : α × Nat) (l : List (α × Nat)) :
    b ∈ insDescSnd x l ↔ b = x ∨ b ∈ l := by
  induction l with
  | nil => simp [insDescSnd]
  | cons y ys ih =>
    unfold insDescSnd
    split
    · simp only [List.mem_cons, ih]
      tauto
    · simp only [List.mem_cons]

theorem pairwise_insDescSnd {α : Type} (x : α × Nat) (l : List (α × Nat))
    (h : l.Pairwise (fun a b => b.2 ≤ a.2)) :
    (insDescSnd x l).Pairwise (fun a b => b.2 ≤ a.2) := by
  induction l with
  | nil => simp [insDescSnd]
  | cons y ys ih =>
    rw [List.pairwise_cons] at h
    obtain ⟨hy, hys⟩ := h
    unfold insDescSnd
    split
    · next hc =>
      rw [List.pairwise_cons]
      refine ⟨fun b hb => ?_, ih hys⟩
      rcases (mem_insDescSnd x b ys).mp hb with rfl | hb2
      · exact hc
      · exact hy b hb2
    · next hc =>
      have hxy : y.2 ≤ x.2 := Nat.le_of_not_le hc
      rw [List.pairwise_cons]
      refine ⟨fun b hb => ?_, List.pairwise_cons.mpr ⟨hy, hys⟩⟩
      rcases List.mem_cons.mp hb with rfl | hb2
      · exact hxy
      · exact Nat.le_trans (hy b hb2) hxy

theorem pairwise_sortDescSnd {α : Type} (l : List (α × Nat)) :
    (sortDescSnd l).Pairwise (fun a b => b.2 ≤ a.2) := by
  induction l with
  | nil => simp [sortDescSnd]
  | cons x xs ih => exact pairwise_insDescSnd x _ ih

theorem mem_sortDescSnd {α : Type} (b : α × Nat) (l : List (α × Nat)) :
    b ∈ sortDescSnd l ↔ b ∈ l := by
  induction l with
  | nil => simp [sortDescSnd]
  | cons x xs ih =>
    unfold sortDescSnd
    rw [mem_insDescSnd]
    simp [ih]

theorem meetsThreshold_iff (c n : Nat) :
    meetsThreshold c n = true ↔ max 1 ((n : ℚ) / 2) ≤ (c : ℚ) := by
  unfold meetsThreshold
  rw [decide_eq_true_eq, Nat.max_le, max_le_iff]
  constructor
  · rintro ⟨h2, hn⟩
    constructor
    · exact_mod_cast (by omega : 1 ≤ c)
    · rw [div_le_iff (by norm_num : (0:ℚ) < 2)]
      exact_mod_cast (by omega : n ≤ c * 2)
  · rintro ⟨h1, hn⟩
    have hc1 : 1 ≤ c := by exact_mod_cast h1
    rw [div_le_iff (by norm_num : (0:ℚ) < 2)] at hn
    have hc2 : n ≤ c * 2 := by exact_mod_cast hn
    exact ⟨by omega, by omega⟩

theorem mem_consistentCookies (reqs : List Entry) (name : String) :
    name ∈ consistentCookies reqs ↔
      ∃ c, (name, c) ∈ (detectAuthPatterns reqs).2 ∧
        meetsThreshold c reqs.length = true := by
  unfold consistentCookies
  rw [List.mem_map]
  constructor
  · rintro ⟨⟨nm, c⟩, hmem, rfl⟩
    rw [mem_sortDescSnd, List.mem_filter] at hmem
    exact ⟨c, hmem.1, hmem.2⟩
  · rintro ⟨c, hmem, hth⟩
    refine ⟨(name, c), ?_, rfl⟩
    rw [mem_sortDescSnd, List.mem_filter]
    exact ⟨hmem, hth⟩

/-- Claim C7: a header or cookie name is classified consistent iff its count
is at least `max(1, n/2)` for `n` total requests (the `2*count >= max(2,n)`
integer test is exactly the source's float comparison); consistent findings
are sorted by descending frequency; and on the ten-request corpus the cookie
seen six times is consistent while the one seen four times is not. -/
theorem auth_consistency_spec :
    (∀ c n, meetsThreshold c n = true ↔ max 1 ((n : ℚ) / 2) ≤ (c : ℚ))
    ∧ (∀ reqs name, name ∈ consistentCookies reqs ↔
        ∃ c, (name, c) ∈ (detectAuthPatterns reqs).2 ∧
          meetsThreshold c reqs.length = true)
    ∧ (∀ reqs, (sortDescSnd (((detectAuthPatterns reqs).2).filter
        (fun p => meetsThreshold p.2 reqs.length))).Pairwise (fun a b => b.2 ≤ a.2))
    ∧ (∀ reqs, (consistentAuthHeaders reqs).Pairwise (fun a b => b.2 ≤ a.2))
    ∧ corpus10.length = 10
    ∧ ("session_id", 6) ∈ (detectAuthPatterns corpus10).2
    ∧ ("tracker", 4) ∈ (detectAuthPatterns corpus10).2
    ∧ "session_id" ∈ consistentCookies corpus10
    ∧ "tracker" ∉ consistentCookies corpus10 :=
  ⟨meetsThreshold_iff, mem_consistentCookies,
   fun _ => pairwise_sortDescSnd _, fun _ => pairwise_sortDescSnd _,
   by decide, by decide, by decide, by decide, by decide⟩

/-! ### Schema inference -/

/-- Claim C8: `inferSchema` on `{"a":1,"b":[1,2,3]}` at depth bound 2
renders `b` as its first element's description annotated with the true
length 3; empty arrays render `[]`; below the bound arrays render an element
description, and objects a field list; at or beyond the bound both collapse
to an item/key count; malformed JSON yields no schema. -/
theorem schema_inference_spec :
    inferSchema "\x7b\"a\":1,\"b\":[1,2,3]\x7d" 2 =
      some "\x7b\n  a: number\n  b: [number] (3 items)\n\x7d"
    ∧ (∀ d m, describeType (Json.arr []) d m = "[]")
    ∧ (∀ x xs d m, d < m →
        describeType (Json.arr (x :: xs)) d m =
          "[" ++ describeType x (d + 1) m ++ "] (" ++ toString (xs.length + 1) ++
            " items)")
    ∧ (∀ xs d m, xs ≠ [] → m ≤ d →
        describeType (Json.arr xs) d m = "[..." ++ toString xs.length ++ " items]")
    ∧ (∀ fs d m, m ≤ d →
        describeType (Json.obj fs) d m = "\x7b..." ++ toString fs.length ++ " keys\x7d")
    ∧ (∀ s d, (jsonParse s).isNone = true → inferSchema s d = none) := by
  refine ⟨by decide, ?_, ?_, ?_, ?_, ?_⟩
  · intro d m
    unfold describeType
    cases h : m - d <;> rfl
  · intro x xs d m hdm
    unfold describeType
    have h1 : m - d = (m - (d + 1)) + 1 := by omega
    rw [h1]
    rfl
  · intro xs d m hne hmd
    unfold describeType
    have h1 : m - d = 0 := by omega
    rw [h1]
    cases xs with
    | nil => exact absurd rfl hne
    | cons y ys => rfl
  · intro fs d m hmd
    unfold describeType
    have h1 : m - d = 0 := by omega
    rw [h1]
    rfl
  · intro s d h
    unfold inferSchema
    cases h2 : jsonParse s with
    | none => rfl
    | some v => rw [h2] at h; simp at h

/-- Witness for C8 at concrete depths and a concrete malformed input. -/
theorem schema_inference_spec_witness :
    describeType (Json.arr []) 0 2 = "[]"
    ∧ (0 < 2 ∧ describeType (Json.arr [Json.num 1]) 0 2 =
        "[" ++ describeType (Json.num 1) 1 2 ++ "] (" ++ toString (1 : Nat) ++ " items)")
    ∧ (([Json.num 1] : List Json) ≠ [] ∧ (2 : Nat) ≤ 2 ∧
        describeType (Json.arr [Json.num 1]) 2 2 = "[..." ++ toString (1 : Nat) ++ " items]")
    ∧ ((2 : Nat) ≤ 3 ∧ describeType (Json.obj [("k", Json.null)]) 3 2 =
        "\x7b..." ++ toString (1 : Nat) ++ " keys\x7d")
    ∧ ((jsonParse "\x7boops").isNone = true ∧ inferSchema "\x7boops" 2 = none) :=
  ⟨schema_inference_spec.2.1 0 2,
   ⟨by decide, by
      have h := schema_inference_spec.2.2.1 (Json.num 1) [] 0 2 (by decide)
      simpa using h⟩,
   ⟨by simp, by decide, by
      have h := schema_inference_spec.2.2.2.1 [Json.num 1] 2 2 (by simp) (by decide)
      simpa using h⟩,
   ⟨by decide, by
      have h := schema_inference_spec.2.2.2.2.1 [("k", Json.null)] 3 2 (by decide)
      simpa using h⟩,
   ⟨by decide, schema_inference_spec.2.2.2.2.2 "\x7boops" 2 (by decide)⟩⟩

/-! ### Rendering determinism and the response-schema guard -/

theorem string_data_append (a b : String) : (a ++ b).data = a.data ++ b.data := by
  cases a
  cases b
  rfl

set_option maxRecDepth 8192

/-- Claim C3 (counterexample): two runs over the identical one-request
corpus on consecutive dates produce different bytes — the title line embeds
`new Date().toISOString().split('T')[0]`, which is not a function of the
capture data. -/
theorem render_date_dependence_cex :
    renderSkill "a.com" "api-a" "2026-01-01" cexCapture ≠
      renderSkill "a.com" "api-a" "2026-01-02" cexCapture := by decide

/-- Claim C3 (amended): the generated document is a pure function of the
capture corpus and the run date: runs on the same date over identical
capture data are byte-identical, and the run date is embedded verbatim in
the title line, so equal renderings force equal dates (different dates give
different documents). -/
theorem render_deterministic_date_injective (domain skillName today1 today2 : String)
    (c : Capture) :
    (today1 = today2 →
      renderSkill domain skillName today1 c = renderSkill domain skillName today2 c)
    ∧ (renderLines domain skillName today1 c = renderLines domain skillName today2 c →
      today1 = today2) := by
  constructor
  · intro h
    rw [h]
  · intro h
    unfold renderLines at h
    have h2 := List.append_cancel_left h
    have h3 : ("# " ++ domain ++ " API (learned " ++ today1 ++ ")") =
        ("# " ++ domain ++ " API (learned " ++ today2 ++ ")") := by
      injection h2
    have h4 := congrArg String.data h3
    simp only [string_data_append, List.append_assoc] at h4
    have h5 := List.append_cancel_left h4
    have h6 := List.append_cancel_left h5
    have h7 := List.append_cancel_left h6
    have h8 : today1.data = today2.data := List.append_cancel_right h7
    cases today1 with
    | mk d1 =>
      cases today2 with
      | mk d2 => exact congrArg String.mk (by simpa using h8)

/-- Witness for C3 (amended) at a concrete corpus and date. -/
theorem render_deterministic_date_injective_witness :
    renderSkill "a.com" "api-a" "2026-01-01" cexCapture =
      renderSkill "a.com" "api-a" "2026-01-01" cexCapture
    ∧ ("2026-01-01" : String) = "2026-01-01" :=
  ⟨(render_deterministic_date_injective "a.com" "api-a" "2026-01-01" "2026-01-01"
      cexCapture).1 rfl,
   (render_deterministic_date_injective "a.com" "api-a" "2026-01-01" "2026-01-01"
      cexCapture).2 rfl⟩

/-- Claim C9: the response-schema block is emitted only when the
representative's response body is truthy and does not begin with `[`; a
body beginning with `[` — a JSON array (here `[1,2,3]`, which does parse)
or a `[failed: ...]` diagnostic — never yields a response schema. -/
theorem responseSchemaLines_some (b : String) (rep : Entry)
    (hb : rep.responseBody = some b) :
    responseSchemaLines rep =
      if b ≠ "" ∧ listStartsWith b.data ['['] = false then
        (match inferSchema b 2 with
         | some schema =>
           if schema ≠ "" then ["**Response schema:**", "```", schema, "```", ""]
           else []
         | none => [])
      else [] := by
  unfold responseSchemaLines
  rw [hb]

theorem response_schema_guard (rep : Entry) :
    (∀ b, rep.responseBody = some b → listStartsWith b.data ['['] = true →
      responseSchemaLines rep = [])
    ∧ (responseSchemaLines rep ≠ [] →
      ∃ b, rep.responseBody = some b ∧ b ≠ "" ∧ listStartsWith b.data ['['] = false)
    ∧ (jsonParse "[1,2,3]").isSome = true
    ∧ (∀ err, listStartsWith ("[failed: " ++ err ++ "]").data ['['] = true) := by
  refine ⟨?_, ?_, by decide, ?_⟩
  · intro b hb hbr
    have hcond : ¬(b ≠ "" ∧ listStartsWith b.data ['['] = false) := by
      rintro ⟨-, hf⟩
      rw [hbr] at hf
      exact Bool.noConfusion hf
    rw [responseSchemaLines_some b rep hb, if_neg hcond]
  · intro hne
    cases hb : rep.responseBody with
    | none =>
      unfold responseSchemaLines at hne
      rw [hb] at hne
      exact absurd rfl hne
    | some b =>
      by_cases hcond : b ≠ "" ∧ listStartsWith b.data ['['] = false
      · exact ⟨b, rfl, hcond.1, hcond.2⟩

      · rw [responseSchemaLines_some b rep hb, if_neg hcond] at hne
        exact absurd rfl hne
  · intro err
    simp [string_data_append, listStartsWith]

/-- Witness for C9: the failure diagnostic `[failed: net::ERR_FAILED]` and
the valid JSON array `[1,2,3]` both produce no response-schema block. -/
theorem response_schema_guard_witness :
    responseSchemaLines { emptyEntry with responseBody := some "[failed: net::ERR_FAILED]" } = []
    ∧ responseSchemaLines { emptyEntry with responseBody := some "[1,2,3]" } = []
    ∧ (jsonParse "[1,2,3]").isSome = true :=
  ⟨(response_schema_guard { emptyEntry with responseBody := some "[failed: net::ERR_FAILED]" }).1
      "[failed: net::ERR_FAILED]" rfl (by decide),
   (response_schema_guard { emptyEntry with responseBody := some "[1,2,3]" }).1
      "[1,2,3]" rfl (by decide),
   (response_schema_guard emptyEntry).2.2.1⟩

end Apiscope
